import Mathlib

/-!
RiverAnalysis: the alarm queue, the alarm accessors of the detectors, the
aggregator step, the capture and dispatcher loops, the worker lifecycle and
the supervisor.

A shallow embedding of the concurrent pipeline runtime of RiverAnalysis
(`AlarmMsgQueue.cpp`, the `GetAlarm`/`SetAlarm` pairs of the detector threads,
`Analysis::DrawInfo`, `Analysis::Run`, `HttpClient::Run`, `RiverThread::Start`
and `Stop`, `AnalysisManager::run`) together with the properties proved about
it.

Conventions of the embedding.

* Every member function that runs under the queue mutex is a function on the
  queue value. A pointer `_data[i]` is represented by the index `i`.
* A condition-variable wait releases the mutex, so the queue a call finds when
  it wakes up is an input of the call (`Wake`, `Waits`), as is the
  `std::cv_status` a timed wait returns.
* `int` members are `Int`. All the counters stay between `-1` and the
  configured size in everything stated below, far from the 32-bit limits.
* `float` payload fields are only ever copied, never computed with; they are
  carried as `Rat`.
* A loop that does not end by itself (the capture loop, the watchdog) is
  followed over the passes listed so far; what it reads from other threads
  or from the video source on a pass is an input of that pass.
* A `join()` returns only when the joined thread has ended. Whether the joins
  inside `StopAnalysis()` return is an input of `Analysis::Run` (`joined`);
  the two threads of one stage are followed step by step in `Stage`.
-/

namespace RiverAnalysis

/-! ## Data model -/

/-- The `cv::Rect` of OpenCV and the `AnalysisRect` message: four integers. -/
structure Rect where
  x : Int
  y : Int
  width : Int
  height : Int
deriving DecidableEq, Repr

/-- The payload of a `cv::Mat`; the empty list is the empty (released) matrix. -/
abbrev Mat := List Nat

/-- The enumeration `AlgorithmType` of the configuration messages, with the
enumerators the sources switch over. -/
inductive AlgorithmType
  | SEGMANTIC
  | WATERGAUGE
  | WATERCOLOR
  | INVADE
  | FLOATER
  | FISHING
  | LITTER
  | SWIMING
deriving DecidableEq, Repr

/-- The record `AlarmData` of `AlarmMsgQueue.h`. The field `scene_type` is an
`int` that holds either an `AlgorithmType` enumerator or the value `-1` written
by `clear()`; `none` stands for that `-1`. -/
structure AlarmData where
  camera_id : String
  current_time : String
  scene_type : Option AlgorithmType
  img : Mat
  rectangle_array_vect : List Rect
  TotalArea : Rat
  Speed : Rat
  DraftValue : Rat
  DraftValueType : Int
  IsActive : Bool
  Color : String
deriving DecidableEq, Repr

/-- The member `AlarmData::clear()`: every field is reset. -/
def AlarmData.clear (d : AlarmData) : AlarmData :=
  { d with
    camera_id := ""
    current_time := ""
    scene_type := none
    img := []
    rectangle_array_vect := []
    TotalArea := 0
    Speed := 0
    DraftValue := 0
    DraftValueType := 1
    IsActive := false
    Color := "" }

/-- The constructor `AlarmData::AlarmData()`, which only calls `clear()`. -/
def AlarmData.new : AlarmData :=
  AlarmData.clear
    { camera_id := "", current_time := "", scene_type := none, img := [],
      rectangle_array_vect := [], TotalArea := 0, Speed := 0, DraftValue := 0,
      DraftValueType := 0, IsActive := false, Color := "" }

instance : Inhabited AlarmData := ⟨AlarmData.new⟩

/-- The data members of the class `AlarmMsgQueue` (mutex and condition
variables apart). -/
structure AlarmMsgQueue where
  _data : List AlarmData
  _size : Int
  _element_size : Int
  _head : Int
  _tail : Int
  _timeout : Int
deriving DecidableEq, Repr

/-- The constructor `AlarmMsgQueue::AlarmMsgQueue(int size, int timeout)`. -/
def AlarmMsgQueue.new (size timeout : Int) : AlarmMsgQueue :=
  { _data := List.replicate size.toNat AlarmData.new
    _head := 0
    _tail := 0
    _size := size
    _element_size := 0
    _timeout := timeout }

/-- The enumeration `std::cv_status`. -/
inductive cv_status
  | no_timeout
  | timeout
deriving DecidableEq, Repr

/-- What a call finds when `wait_for` returns: the status, and the queue as it
is once the mutex has been taken again. -/
structure Wake where
  status : cv_status
  queue : AlarmMsgQueue
deriving DecidableEq, Repr

/-- The wake-ups offered to one acquiring call. `timed` is the outcome of the
`wait_for` of the branch `_timeout >= 0`, used only if that wait is reached.
`untimed` lists the queue as found at the successive wake-ups of the predicate
wait of the branch `_timeout < 0`. -/
structure Waits where
  timed : Wake
  untimed : List AlarmMsgQueue
deriving DecidableEq, Repr

/-- The outcome of an acquiring call: still inside its wait, returned `NULL`,
or returned the pointer `_data[i]`. -/
inductive Acquire
  | blocked
  | null
  | slot (i : Int)
deriving DecidableEq, Repr

/-- The pointer an acquiring call hands to its caller, if any. -/
def Acquire.pointer : Acquire → Option Int
  | Acquire.slot i => some i
  | _ => none

/-- The predicate wait `cond.wait(lk, pred)`, that is
`while (!pred()) cond.wait(lk);`: the queue on which the predicate first holds,
or `none` when it holds neither now nor at any of the listed wake-ups. -/
def wait_pred (pred : AlarmMsgQueue → Bool) : AlarmMsgQueue → List AlarmMsgQueue → Option AlarmMsgQueue
  | q, [] => if pred q then some q else none
  | q, q1 :: rest => if pred q then some q else wait_pred pred q1 rest

/-- The member `AlarmMsgQueue::get_head_to_write()`: the outcome and the queue
at the moment the call returns. -/
def get_head_to_write (q : AlarmMsgQueue) (w : Waits) : Acquire × AlarmMsgQueue :=
  if q._timeout < 0 then
    match wait_pred (fun s => decide (s._element_size < s._size - 1)) q w.untimed with
    | none => (Acquire.blocked, q)
    | some s => (Acquire.slot s._head, s)
  else if q._element_size ≥ q._size - 1 then
    if w.timed.status = cv_status.timeout then (Acquire.null, w.timed.queue)
    else (Acquire.slot w.timed.queue._head, w.timed.queue)
  else (Acquire.slot q._head, q)

/-- The member `AlarmMsgQueue::head_next()`. -/
def head_next (q : AlarmMsgQueue) : AlarmMsgQueue :=
  let q1 := { q with _element_size := q._element_size + 1 }
  let h := q1._head + 1
  { q1 with _head := if h = q1._size - 1 then 0 else h }

/-- The member `AlarmMsgQueue::get_tail_to_read()`: the outcome and the queue
at the moment the call returns. -/
def get_tail_to_read (q : AlarmMsgQueue) (w : Waits) : Acquire × AlarmMsgQueue :=
  if q._timeout < 0 then
    match wait_pred (fun s => decide (s._element_size > 0)) q w.untimed with
    | none => (Acquire.blocked, q)
    | some s => (Acquire.slot s._tail, s)
  else if q._element_size ≤ 0 then
    if w.timed.status = cv_status.timeout then (Acquire.null, w.timed.queue)
    else (Acquire.slot w.timed.queue._tail, w.timed.queue)
  else (Acquire.slot q._tail, q)

/-- The member `AlarmMsgQueue::tail_next()`. -/
def tail_next (q : AlarmMsgQueue) : AlarmMsgQueue :=
  let q1 := { q with _element_size := q._element_size - 1 }
  let t := q1._tail + 1
  { q1 with _tail := if t = q1._size - 1 then 0 else t }

/-- A wait during which no other thread touches the queue: the timed wait ends
with status `st` on the unchanged queue, the untimed wait is never woken. -/
def Waits.quiet (st : cv_status) (q : AlarmMsgQueue) : Waits :=
  { timed := { status := st, queue := q }, untimed := [] }

/-- The behaviour of the other threads during a wait, as a function of the
queue on which the wait begins. -/
abbrev Env := AlarmMsgQueue → Waits

/-- The surroundings in which nobody touches the queue during a wait and every
timed wait ends with status `st`. -/
def Env.quiet (st : cv_status) : Env := fun q => Waits.quiet st q

/-- The record behind the pointer `_data[i]`. The index is never negative
where this is used; the fresh record stands in for an index past the end,
where the C++ behaviour is undefined. -/
def slot_at (q : AlarmMsgQueue) (i : Int) : AlarmData :=
  q._data.getD i.toNat AlarmData.new

/-- A write of the record `r` through the pointer `_data[i]`, for an index
that is not negative. -/
def store (q : AlarmMsgQueue) (i : Int) (r : AlarmData) : AlarmMsgQueue :=
  { q with _data := q._data.set i.toNat r }

/-- One write attempt, as the loop body of `Analysis::DrawInfo` performs it:
`get_head_to_write()`; on `NULL` the record is given up (`continue`);
otherwise the slot is filled in place (`fill` maps the old content of the slot
to the new one) and `head_next()` commits it. -/
def write_attempt (q : AlarmMsgQueue) (env : Env) (fill : AlarmData → AlarmData) :
    Acquire × AlarmMsgQueue :=
  match get_head_to_write q (env q) with
  | (Acquire.slot i, q1) => (Acquire.slot i, head_next (store q1 i (fill (slot_at q1 i))))
  | (r, q1) => (r, q1)

/-- A run of write attempts, one after the other, with their outcomes. An
attempt that stays blocked in its wait ends the run: the caller never gets to
the next one. -/
def write_attempts : AlarmMsgQueue → List (Env × (AlarmData → AlarmData)) →
    List Acquire × AlarmMsgQueue
  | q, [] => ([], q)
  | q, (env, fill) :: rest =>
    let r := write_attempt q env fill
    if r.1 = Acquire.blocked then ([Acquire.blocked], r.2)
    else
      let rs := write_attempts r.2 rest
      (r.1 :: rs.1, rs.2)

/-- One read attempt, as an iteration of the loop of `HttpClient::Run` performs
it: `get_tail_to_read()`; on `NULL` nothing is read (`continue`); otherwise the
record is read out of the slot and `tail_next()` retires it. -/
def read_attempt (q : AlarmMsgQueue) (env : Env) : Option AlarmData × AlarmMsgQueue :=
  match get_tail_to_read q (env q) with
  | (Acquire.slot i, q1) => (some (slot_at q1 i), tail_next q1)
  | (_, q1) => (none, q1)

/-- A run of read attempts, one after the other, with what each one read
(`none` for an attempt answered with `NULL`). -/
def read_attempts : AlarmMsgQueue → List Env → List (Option AlarmData) × AlarmMsgQueue
  | q, [] => ([], q)
  | q, env :: rest =>
    let r := read_attempt q env
    let rs := read_attempts r.2 rest
    (r.1 :: rs.1, rs.2)

/-! ## Sequences of calls by one producer and one consumer

All accesses to the queue happen under its mutex and an acquiring call reads
the queue only after its wait, so a call takes effect at the moment it
returns. A history of the two threads is therefore a list of calls; a call
that waited and was woken by the other thread's commit appears after that
commit. Within such a list nobody touches the queue during a wait
(`Waits.quiet`): a timed wait that is reached ends with the status carried by
the call, and status `no_timeout` then is a spurious wake-up. -/

/-- One call on the queue by the producer or by the consumer. `populate r` is
the producer writing the record `r` through the pointer it holds. -/
inductive Call
  | get_head_to_write (st : cv_status)
  | populate (r : AlarmData)
  | head_next
  | get_tail_to_read (st : cv_status)
  | tail_next
deriving DecidableEq, Repr

/-- The queue together with the pointers the two threads hold and three
logs: the records committed by `head_next`, the records returned by
`get_tail_to_read`, and the records as they were when `tail_next` retired
them. -/
structure Session where
  q : AlarmMsgQueue
  whold : Option Int
  rhold : Option Int
  committed : List AlarmData
  returned : List AlarmData
  retired : List AlarmData
deriving DecidableEq, Repr

/-- The session right after the queue has been constructed. -/
def Session.init (size timeout : Int) : Session :=
  { q := AlarmMsgQueue.new size timeout, whold := none, rhold := none,
    committed := [], returned := [], retired := [] }

/-- The effect of one call. Every call is executed as the code executes it,
whether or not the caller follows the acquire/commit protocol. -/
def Session.step (s : Session) : Call → Session
  | Call.get_head_to_write st =>
    let r := get_head_to_write s.q (Waits.quiet st s.q)
    { s with q := r.2, whold := r.1.pointer }
  | Call.populate r =>
    match s.whold with
    | some i => { s with q := store s.q i r }
    | none => s
  | Call.head_next =>
    { s with q := head_next s.q, whold := none,
             committed := s.committed ++ [slot_at s.q s.q._head] }
  | Call.get_tail_to_read st =>
    let r := get_tail_to_read s.q (Waits.quiet st s.q)
    { s with q := r.2, rhold := r.1.pointer,
             returned := s.returned ++ (r.1.pointer.map (slot_at r.2)).toList }
  | Call.tail_next =>
    { s with q := tail_next s.q, rhold := none,
             retired := s.retired ++ [slot_at s.q s.q._tail] }

/-- The session after a list of calls. -/
def Session.run (s : Session) : List Call → Session
  | [] => s
  | c :: cs => Session.run (s.step c) cs

/-- The acquire/commit protocol for one call: a commit (and a write through
the pointer) needs a pointer obtained from the matching acquire and not yet
committed, and a timed wait that is reached on the unchanged queue ends by
its timeout. -/
def Call.respects (s : Session) : Call → Bool
  | Call.get_head_to_write st =>
    decide (0 ≤ s.q._timeout → s.q._element_size ≥ s.q._size - 1 → st = cv_status.timeout)
  | Call.populate _ => s.whold.isSome
  | Call.head_next => s.whold.isSome
  | Call.get_tail_to_read st =>
    decide (0 ≤ s.q._timeout → s.q._element_size ≤ 0 → st = cv_status.timeout)
  | Call.tail_next => s.rhold.isSome

/-- A list of calls each of which respects the protocol in the session it is
issued in. -/
def Session.respects : Session → List Call → Bool
  | _, [] => true
  | s, c :: cs => c.respects s && Session.respects (s.step c) cs

/-- The protocol of the two loops in the program: as `Call.respects`, and in
addition a thread acquires only when it holds no pointer, so that each thread
cycles through acquire, use, commit. -/
def Call.cycles (s : Session) : Call → Bool
  | Call.get_head_to_write st =>
    (Call.get_head_to_write st).respects s && s.whold.isNone
  | Call.get_tail_to_read st =>
    (Call.get_tail_to_read st).respects s && s.rhold.isNone
  | c => c.respects s

/-- A list of calls in which both threads cycle through acquire, use,
commit. -/
def Session.cycles : Session → List Call → Bool
  | _, [] => true
  | s, c :: cs => c.cycles s && Session.cycles (s.step c) cs

/-- The acquire/use/commit cycle by itself, with no condition on how a timed
wait ends: a thread acquires only when it holds no pointer, and it writes
through, or commits, only a pointer it holds. -/
def Call.takes_turns (s : Session) : Call → Bool
  | Call.get_head_to_write _ => s.whold.isNone
  | Call.populate _ => s.whold.isSome
  | Call.head_next => s.whold.isSome
  | Call.get_tail_to_read _ => s.rhold.isNone
  | Call.tail_next => s.rhold.isSome

/-- A list of calls in which both threads go through acquire, use, commit,
however their timed waits end. -/
def Session.takes_turns : Session → List Call → Bool
  | _, [] => true
  | s, c :: cs => c.takes_turns s && Session.takes_turns (s.step c) cs

/-! ## The ring of slots -/

/-- The index after `t` in a ring of `n` slots, computed as `head_next` and
`tail_next` compute it. -/
def next_index (n t : Nat) : Nat := if t + 1 = n then 0 else t + 1

/-- The index `k` places after `t` in a ring of `n` slots. -/
def ring_index (n t k : Nat) : Nat := if t + k < n then t + k else t + k - n

/-- The records in the `k` slots from index `t` on, in ring order. -/
def window (data : List AlarmData) (n : Nat) : Nat → Nat → List AlarmData
  | _, 0 => []
  | t, k + 1 => data.getD t AlarmData.new :: window data n (next_index n t) k

/-- The shape of a session reached by calls that respect the protocol, for a
ring of `n` slots with tail `t`, head `h` and `k` occupied slots: the indices
are in range and `k` apart, a held write pointer is the head of a queue that is
not full, a held read pointer is the tail of a queue that is not empty, and the
committed records are the retired ones followed by the occupied slots. -/
structure Session.Shape (s : Session) (n t h k : Nat) : Prop where
  size_eq : s.q._size = (n : Int) + 1
  tail_eq : s.q._tail = (t : Int)
  head_eq : s.q._head = (h : Int)
  occ_eq : s.q._element_size = (k : Int)
  n_pos : 1 ≤ n
  t_lt : t < n
  h_lt : h < n
  k_le : k ≤ n
  apart : h = t + k ∨ h + n = t + k
  len : s.q._data.length = n + 1
  wheld : ∀ i, s.whold = some i → i = (h : Int) ∧ k < n
  rheld : ∀ i, s.rhold = some i → i = (t : Int) ∧ 0 < k
  log : s.committed = s.retired ++ window s.q._data n t k

/-- The invariant of the sessions in which both threads cycle: in addition the
records returned by `get_tail_to_read` are the retired ones, followed by the
record at the tail when the consumer holds it. -/
def Session.LogInv (s : Session) (n : Nat) : Prop :=
  (∃ t h k : Nat, s.Shape n t h k) ∧
    s.returned = s.retired ++ (if s.rhold.isSome then [slot_at s.q s.q._tail] else [])

/-- The number of write attempts that obtained a slot. -/
def accepted (rs : List Acquire) : Nat := (rs.filter (fun r => r.pointer.isSome)).length

/-- The number of write attempts that were answered with `NULL`. -/
def dropped (rs : List Acquire) : Nat := (rs.filter (fun r => decide (r = Acquire.null))).length

/-- A sample record, told apart from others by its time stamp. -/
def AlarmData.sample (stamp : String) : AlarmData :=
  { AlarmData.new with current_time := stamp, scene_type := some AlgorithmType.INVADE,
                       IsActive := true }

/-- A history on a queue of size 3: two accepted writes, a refused third one,
one read, and a further write into the place the read freed. -/
def history_refused_write : List Call :=
  [Call.get_head_to_write cv_status.timeout, Call.head_next,
   Call.get_head_to_write cv_status.timeout, Call.head_next,
   Call.get_head_to_write cv_status.timeout,
   Call.get_tail_to_read cv_status.timeout, Call.tail_next,
   Call.get_head_to_write cv_status.timeout, Call.head_next]

/-- A history on a queue of size 3: two records are written, the first is read
and retired while the producer is refused and then writes a third, the second
is read and retired, and the consumer ends holding the third. -/
def history_three_records : List Call :=
  [Call.get_head_to_write cv_status.timeout, Call.populate (AlarmData.sample "a"),
   Call.head_next,
   Call.get_head_to_write cv_status.timeout, Call.populate (AlarmData.sample "b"),
   Call.head_next,
   Call.get_tail_to_read cv_status.timeout,
   Call.get_head_to_write cv_status.timeout,
   Call.tail_next,
   Call.get_head_to_write cv_status.timeout, Call.populate (AlarmData.sample "c"),
   Call.get_tail_to_read cv_status.timeout,
   Call.head_next, Call.tail_next,
   Call.get_tail_to_read cv_status.timeout]

/-- A history on a queue of size 2 and timeout 1000 ms: the record `a` is
written, read and retired; the consumer then acquires again, on the empty
queue, and its timed wait is woken although nothing has been committed. -/
def history_spurious_read : List Call :=
  [Call.get_head_to_write cv_status.timeout, Call.populate (AlarmData.sample "a"),
   Call.head_next,
   Call.get_tail_to_read cv_status.timeout, Call.tail_next,
   Call.get_tail_to_read cv_status.no_timeout, Call.tail_next]

/-- A history on a queue of size 2 and timeout 1000 ms: the record `a` is
written and committed; the producer then acquires again, on the full queue,
its timed wait is woken although nothing has been retired, and it writes and
commits the record `b`; the consumer then reads. -/
def history_spurious_write : List Call :=
  [Call.get_head_to_write cv_status.timeout, Call.populate (AlarmData.sample "a"),
   Call.head_next,
   Call.get_head_to_write cv_status.no_timeout, Call.populate (AlarmData.sample "b"),
   Call.head_next,
   Call.get_tail_to_read cv_status.timeout]

/-! ## Detectors and their alarms -/

/-- Modelled from the spec: the message `AnalysisAlarm` of the generated
`AnalysisConfig.pb.h`, which is not among the sources. The spec describes it as
scene type, `is_active`, rectangles and a scalar payload; the fields are the
ones the sources read and write through the generated accessors. -/
structure AnalysisAlarm where
  scene_type : AlgorithmType
  is_active : Bool
  rects : List Rect
  floater_area : Rat
  floater_speed : Rat
  water_color : String
  water_gauge_num : Rat
deriving DecidableEq, Repr

/-- Modelled from the spec: the freshly constructed message `AnalysisAlarm()`,
every field at its default, so not active, without rectangles, and with the
first enumerator as scene type. -/
def AnalysisAlarm.new : AnalysisAlarm :=
  { scene_type := AlgorithmType.SEGMANTIC, is_active := false, rects := [],
    floater_area := 0, floater_speed := 0, water_color := "", water_gauge_num := 0 }

/-- Modelled from the spec: the part of the message `AlgorithmConfig` that the
pipeline runtime reads, the algorithm type and the list of regions of
interest. -/
structure AlgorithmConfig where
  algorithm_type : AlgorithmType
  roi_rects : List Rect
deriving DecidableEq, Repr

/-- The classes derived from `RiverThread` that `Analysis::GetAlgorithm`
instantiates. -/
inductive DetectorKind
  | TensorflowThread
  | WaterGaugeThread
  | WaterColorThread
  | InvadeThread
  | FloaterThread
  | FishingThread
  | LitterThread
deriving DecidableEq, Repr

/-- A detector object: its dynamic class and the members `config` and `alarm`
of `RiverThread`. -/
structure RiverThread where
  kind : DetectorKind
  config : AlgorithmConfig
  alarm : AnalysisAlarm
deriving DecidableEq, Repr

/-- The loops `for (rect : rects) { newrect = alarm.add_rects(); ... }` of the
`SetAlarm` members: one `AnalysisRect` is appended per rectangle. -/
def add_rects (alarm : AnalysisAlarm) (rects : List Rect) : AnalysisAlarm :=
  { alarm with rects := alarm.rects ++ rects }

/-- The member `FishingThread::GetAlarm()`: the result and the alarm left
behind. -/
def FishingThread.GetAlarm (alarm : AnalysisAlarm) : AnalysisAlarm × AnalysisAlarm :=
  let res := alarm
  (res, { alarm with is_active := false })

/-- The member `FishingThread::SetAlarm(is_active, people_rect)`. -/
def FishingThread.SetAlarm (alarm : AnalysisAlarm) (is_active : Bool) (people_rect : List Rect) :
    AnalysisAlarm :=
  let alarm := { alarm with is_active := is_active }
  let alarm := { alarm with rects := [] }
  if !is_active then alarm else add_rects alarm people_rect

/-- The member `FloaterThread::GetAlarm()`: the result and the alarm left
behind. The statement `alarm.set_is_active(false)` is commented out in the
source, so the alarm is left as it was. -/
def FloaterThread.GetAlarm (alarm : AnalysisAlarm) : AnalysisAlarm × AnalysisAlarm :=
  let res := alarm
  (res, alarm)

/-- The member `FloaterThread::SetAlarm(is_active, area, speed, floater_rect)`. -/
def FloaterThread.SetAlarm (alarm : AnalysisAlarm) (is_active : Bool) (area speed : Rat)
    (floater_rect : List Rect) : AnalysisAlarm :=
  let alarm := { alarm with is_active := is_active }
  let alarm := { alarm with rects := [] }
  if !is_active then
    { alarm with floater_area := 0, floater_speed := 0 }
  else
    add_rects { alarm with floater_area := area, floater_speed := speed } floater_rect

/-- The member `InvadeThread::GetAlarm()`: the result and the alarm left
behind. -/
def InvadeThread.GetAlarm (alarm : AnalysisAlarm) : AnalysisAlarm × AnalysisAlarm :=
  let res := alarm
  (res, { alarm with is_active := false })

/-- The member `InvadeThread::SetAlarm(is_active, result)`. -/
def InvadeThread.SetAlarm (alarm : AnalysisAlarm) (is_active : Bool) (result : List Rect) :
    AnalysisAlarm :=
  let alarm := { alarm with is_active := is_active }
  let alarm := { alarm with rects := [] }
  if !is_active then alarm else add_rects alarm result

/-- The member `LitterThread::GetAlarm()`: the result and the alarm left
behind. -/
def LitterThread.GetAlarm (alarm : AnalysisAlarm) : AnalysisAlarm × AnalysisAlarm :=
  let res := alarm
  (res, { alarm with is_active := false })

/-- The member `LitterThread::SetAlarm(is_active, people_rect, floater_rect)`. -/
def LitterThread.SetAlarm (alarm : AnalysisAlarm) (is_active : Bool)
    (people_rect floater_rect : List Rect) : AnalysisAlarm :=
  let alarm := { alarm with is_active := is_active }
  let alarm := { alarm with rects := [] }
  if !is_active then alarm else add_rects (add_rects alarm people_rect) floater_rect

/-- The member `WaterColorThread::GetAlarm()`: the result and the alarm left
behind. -/
def WaterColorThread.GetAlarm (alarm : AnalysisAlarm) : AnalysisAlarm × AnalysisAlarm :=
  let res := alarm
  (res, { alarm with is_active := false })

/-- The member `WaterColorThread::SetAlarm(color)`. -/
def WaterColorThread.SetAlarm (alarm : AnalysisAlarm) (color : String) : AnalysisAlarm :=
  { alarm with water_color := color, is_active := true }

/-- The member `WaterGaugeThread::GetAlarm()`: the result and the alarm left
behind. -/
def WaterGaugeThread.GetAlarm (alarm : AnalysisAlarm) : AnalysisAlarm × AnalysisAlarm :=
  let res := alarm
  (res, { alarm with is_active := false })

/-- The member `WaterGaugeThread::SetAlarm(num)`. -/
def WaterGaugeThread.SetAlarm (alarm : AnalysisAlarm) (num : Rat) : AnalysisAlarm :=
  { alarm with is_active := true, water_gauge_num := num }

/-- The virtual call `ptr->GetAlarm()`: the result and the detector
afterwards. `TensorflowThread` does not override the member, so the call
reaches `RiverThread::GetAlarm()`, which returns a fresh `AnalysisAlarm()`. -/
def RiverThread.GetAlarm (d : RiverThread) : AnalysisAlarm × RiverThread :=
  match d.kind with
  | DetectorKind.TensorflowThread => (AnalysisAlarm.new, d)
  | DetectorKind.WaterGaugeThread =>
    ((WaterGaugeThread.GetAlarm d.alarm).1, { d with alarm := (WaterGaugeThread.GetAlarm d.alarm).2 })
  | DetectorKind.WaterColorThread =>
    ((WaterColorThread.GetAlarm d.alarm).1, { d with alarm := (WaterColorThread.GetAlarm d.alarm).2 })
  | DetectorKind.InvadeThread =>
    ((InvadeThread.GetAlarm d.alarm).1, { d with alarm := (InvadeThread.GetAlarm d.alarm).2 })
  | DetectorKind.FloaterThread =>
    ((FloaterThread.GetAlarm d.alarm).1, { d with alarm := (FloaterThread.GetAlarm d.alarm).2 })
  | DetectorKind.FishingThread =>
    ((FishingThread.GetAlarm d.alarm).1, { d with alarm := (FishingThread.GetAlarm d.alarm).2 })
  | DetectorKind.LitterThread =>
    ((LitterThread.GetAlarm d.alarm).1, { d with alarm := (LitterThread.GetAlarm d.alarm).2 })

/-! ## The aggregator step `Analysis::DrawInfo` -/

/-- The `struct timeval` of `gettimeofday`. -/
structure timeval where
  tv_sec : Int
  tv_usec : Int
deriving DecidableEq, Repr

/-- The members of `Analysis` that the aggregator step reads and writes.
`video_id` is the value the assignment `camera_id = config.video_id()` stores.
The list `algorithms` holds no `NULL`: `Analysis::LoadConfig` pushes only
detectors that exist. -/
structure Analysis where
  algorithms : List RiverThread
  video_id : String
  send_queue : AlarmMsgQueue
  last_time : timeval
deriving DecidableEq, Repr

/-- What one call of `Analysis::DrawInfo` takes from outside: the frame with
the overlays drawn, the reading of `gettimeofday`, and for the alarm at
position `i` of the tick the formatted reading of `time(0)` and the
surroundings of the queue during its write attempt. -/
structure Tick where
  img : Mat
  time_now : timeval
  currentTime : Nat → String
  env : Nat → Env

/-- The first loop of `Analysis::DrawInfo`, drawing apart: every detector is
asked for its alarm, and the `switch` on the configured algorithm type decides
whether the alarm joins the vector `alarms`. The result is that vector and the
detectors as `GetAlarm` leaves them. -/
def collect_alarms : List RiverThread → List AnalysisAlarm × List RiverThread
  | [] => ([], [])
  | ptr :: rest =>
    let type := ptr.config.algorithm_type
    let got := ptr.GetAlarm
    let alarm := got.1
    let pushed : List AnalysisAlarm :=
      match type with
      | AlgorithmType.SEGMANTIC => []
      | AlgorithmType.WATERGAUGE =>
        let alarm := { alarm with scene_type := AlgorithmType.WATERGAUGE }
        if alarm.is_active then [alarm] else []
      | AlgorithmType.WATERCOLOR =>
        let alarm := { alarm with scene_type := AlgorithmType.WATERCOLOR }
        if alarm.is_active then [alarm] else []
      | AlgorithmType.SWIMING => []
      | AlgorithmType.LITTER =>
        if alarm.is_active then [{ alarm with scene_type := AlgorithmType.LITTER }] else []
      | AlgorithmType.INVADE =>
        if alarm.is_active then [{ alarm with scene_type := AlgorithmType.INVADE }] else []
      | AlgorithmType.FLOATER =>
        let alarm := { alarm with scene_type := AlgorithmType.FLOATER }
        if alarm.is_active then [alarm] else []
      | AlgorithmType.FISHING =>
        let alarm := { alarm with scene_type := AlgorithmType.FISHING }
        if alarm.is_active then [alarm] else []
    let others := collect_alarms rest
    (pushed ++ others.1, got.2 :: others.2)

/-- The rate limiter of `Analysis::DrawInfo`: the expression
`(time_now.tv_sec - last_time.tv_sec)*1000 + (time_now.tv_usec - last_time.tv_usec)/1000`,
computed in `long` with the truncating division of C and then stored in a
`uint32_t`. -/
def diff_time (last_time time_now : timeval) : Int :=
  ((time_now.tv_sec - last_time.tv_sec) * 1000 +
    Int.tdiv (time_now.tv_usec - last_time.tv_usec) 1000) % 4294967296

/-- The body of the second loop of `Analysis::DrawInfo` between the acquire
and the commit: the slot is cleared and then filled from the alarm `info`. -/
def fill_alarm (video_id currentTime : String) (img : Mat) (info : AnalysisAlarm)
    (this_alarm : AlarmData) : AlarmData :=
  let this_alarm := this_alarm.clear
  let this_alarm := { this_alarm with camera_id := video_id }
  let this_alarm := { this_alarm with scene_type := some info.scene_type }
  let this_alarm := { this_alarm with current_time := currentTime }
  let this_alarm := { this_alarm with img := img }
  match info.scene_type with
  | AlgorithmType.SEGMANTIC => this_alarm
  | AlgorithmType.WATERCOLOR => { this_alarm with Color := info.water_color }
  | AlgorithmType.WATERGAUGE => { this_alarm with DraftValue := info.water_gauge_num }
  | AlgorithmType.FLOATER =>
    { this_alarm with
      IsActive := true
      TotalArea := info.floater_area
      Speed := info.floater_speed
      rectangle_array_vect := this_alarm.rectangle_array_vect ++ info.rects }
  | AlgorithmType.INVADE =>
    { this_alarm with
      IsActive := true
      rectangle_array_vect := this_alarm.rectangle_array_vect ++ info.rects }
  | AlgorithmType.FISHING =>
    { this_alarm with
      IsActive := true
      rectangle_array_vect := this_alarm.rectangle_array_vect ++ info.rects }
  | AlgorithmType.LITTER =>
    { this_alarm with
      IsActive := true
      rectangle_array_vect := this_alarm.rectangle_array_vect ++ info.rects }
  | AlgorithmType.SWIMING => { this_alarm with IsActive := true }

/-- The write attempts of the second loop of `Analysis::DrawInfo`, one per
alarm, each with the surroundings and the time stamp of its position. -/
def forward_plan (video_id : String) (tick : Tick) :
    Nat → List AnalysisAlarm → List (Env × (AlarmData → AlarmData))
  | _, [] => []
  | i, info :: rest =>
    (tick.env i, fill_alarm video_id (tick.currentTime i) tick.img info) ::
      forward_plan video_id tick (i + 1) rest

/-- The member `Analysis::DrawInfo`, drawing apart: the pipeline afterwards
and the outcomes of the write attempts it made. -/
def Analysis.DrawInfo (a : Analysis) (tick : Tick) : Analysis × List Acquire :=
  let got := collect_alarms a.algorithms
  let alarms := got.1
  let a := { a with algorithms := got.2 }
  if alarms.isEmpty then (a, [])
  else
    let time_now := tick.time_now
    if diff_time a.last_time time_now < 1000 then (a, [])
    else
      let a := { a with last_time := time_now }
      let r := write_attempts a.send_queue (forward_plan a.video_id tick 0 alarms)
      ({ a with send_queue := r.2 }, r.1)

/-- A tick at `sec` seconds sharp, with the frame `img` and the formatted time
`stamp`, during which nobody else touches the queue and every timed wait times
out. -/
def Tick.on_second (sec : Int) (stamp : String) (img : Mat) : Tick :=
  { img := img
    time_now := { tv_sec := sec, tv_usec := 0 }
    currentTime := fun _ => stamp
    env := fun _ => Env.quiet cv_status.timeout }

/-- The tick of the first second in the sample runs. -/
def first_tick : Tick := Tick.on_second 1 "1970-01-01 08:00:01" [1]

/-- The tick of the second second in the sample runs. -/
def second_tick : Tick := Tick.on_second 2 "1970-01-01 08:00:02" [2]

/-- A pipeline as `Analysis::LoadConfig` sets it up (queue of size 50, timeout
1000 ms) with the detector `d` as its only algorithm. -/
def Analysis.single (d : RiverThread) : Analysis :=
  { algorithms := [d]
    video_id := "7"
    send_queue := AlarmMsgQueue.new 50 1000
    last_time := { tv_sec := 0, tv_usec := 0 } }

/-- A floater detector on which `SetAlarm(true, 12, 3, {one rectangle})` has
been called. -/
def active_floater : RiverThread :=
  { kind := DetectorKind.FloaterThread
    config := { algorithm_type := AlgorithmType.FLOATER, roi_rects := [] }
    alarm := FloaterThread.SetAlarm
      { AnalysisAlarm.new with scene_type := AlgorithmType.FLOATER } true 12 3
      [{ x := 1, y := 2, width := 3, height := 4 }] }

/-- An intrusion detector on which `SetAlarm(true, {one rectangle})` has been
called. -/
def active_invade : RiverThread :=
  { kind := DetectorKind.InvadeThread
    config := { algorithm_type := AlgorithmType.INVADE,
                roi_rects := [{ x := 0, y := 0, width := 10, height := 10 }] }
    alarm := InvadeThread.SetAlarm AnalysisAlarm.new true
      [{ x := 1, y := 2, width := 3, height := 4 }] }

/-- Two consecutive calls of `Analysis::DrawInfo` with nothing in between (in
particular no `SetAlarm` on any detector): the pipeline afterwards and the
outcomes of the write attempts of the first and of the second call. -/
def two_ticks (a : Analysis) (t1 t2 : Tick) : Analysis × List Acquire × List Acquire :=
  let r1 := a.DrawInfo t1
  let r2 := r1.1.DrawInfo t2
  (r2.1, r1.2, r2.2)

/-! ## Sample queues and histories -/

/-- A queue of size 2 and timeout 1000 ms that holds one record, and so is
full. -/
def full_queue : AlarmMsgQueue :=
  (write_attempt (AlarmMsgQueue.new 2 1000) (Env.quiet cv_status.timeout)
    (fun _ => AlarmData.sample "a")).2

/-- A queue with timeout -1 that holds one record, and so is full. -/
def full_queue_untimed : AlarmMsgQueue :=
  (write_attempt (AlarmMsgQueue.new 2 (-1)) (Env.quiet cv_status.timeout)
    (fun _ => AlarmData.sample "a")).2

/-- The wake-ups of a producer blocked on `full_queue_untimed`: a first one
that finds the queue still full, and a second one after the consumer has
retired the record. -/
def wake_after_retire : Waits :=
  { timed := { status := cv_status.timeout, queue := full_queue_untimed }
    untimed := [full_queue_untimed, tail_next full_queue_untimed] }

/-! ## The worker lifecycle `RiverThread::Start` and `RiverThread::Stop` -/

/-- A `std::thread` object, as far as `Start` and `Stop` look at it. -/
structure std_thread where
  joinable : Bool
deriving DecidableEq, Repr

/-- What `Start` and `Stop` do to thread objects: `new std::thread(Run, this)`
creates an execution unit, `join()` returns once it has ended, `delete`
destroys a thread object that is or is not joinable, and the destructor of a
joinable `std::thread` calls `std::terminate()`. -/
inductive ThreadEvent
  | spawned
  | joined
  | deleted (joinable : Bool)
  | terminate
deriving DecidableEq, Repr

/-- The members `_is_run` and `_thread` of a `RiverThread`, with the log of
what has happened to its thread objects so far. -/
structure WorkerThread where
  _is_run : Bool
  _thread : Option std_thread
  log : List ThreadEvent
deriving DecidableEq, Repr

/-- The constructor `RiverThread::RiverThread()`. -/
def WorkerThread.new : WorkerThread :=
  { _is_run := false, _thread := none, log := [] }

/-- The member `RiverThread::Start()`. With a thread object present and not
joinable it returns at once. With a joinable one it runs `delete _thread`, and
the destructor of a joinable `std::thread` calls `std::terminate()`: the
process ends there, before `_thread = NULL` and the `new`. -/
def RiverThread.Start (w : WorkerThread) : WorkerThread :=
  match w._thread with
  | some t =>
    if !t.joinable then w
    else { w with log := w.log ++ [ThreadEvent.deleted true, ThreadEvent.terminate] }
  | none =>
    { w with _thread := some { joinable := true }, log := w.log ++ [ThreadEvent.spawned] }

/-- The member `RiverThread::Stop()`. The `join()` returns when the run loop of
the worker has ended; the thread object is then no longer joinable and is
deleted. -/
def RiverThread.Stop (w : WorkerThread) : WorkerThread :=
  match w._thread with
  | none => w
  | some t =>
    if !t.joinable then w
    else
      { w with _is_run := false, _thread := none,
               log := w.log ++ [ThreadEvent.joined, ThreadEvent.deleted false] }

/-- A worker that has been started and is running: thread object present and
joinable. -/
def running_worker : WorkerThread :=
  { (RiverThread.Start WorkerThread.new) with _is_run := true }

/-- A worker whose run loop has ended on its own: the flag is cleared, the
thread object is still there and joinable. -/
def dead_worker : WorkerThread :=
  { (RiverThread.Start WorkerThread.new) with _is_run := false }

/-! ## The supervisor `AnalysisManager::run` -/

/-- What `AnalysisManager::run` does to the pipeline at position `i` of
`inst_vec`: the calls it issues, and the reading of the flag `_is_run`. -/
inductive ManagerAction
  | Start (i : Nat)
  | sleep (seconds : Nat)
  | examine (i : Nat) (is_run : Bool)
  | Stop (i : Nat)
  | WaitFor (i : Nat) (ms : Nat)
deriving DecidableEq, Repr

/-- The body of the inner `for` loop of the watchdog for the pipeline at
position `i`, whose flag `_is_run` reads `is_run`. -/
def AnalysisManager.visit (i : Nat) (is_run : Bool) : List ManagerAction :=
  [ManagerAction.examine i is_run] ++
    (if !is_run then [ManagerAction.Stop i, ManagerAction.Start i] else []) ++
    [ManagerAction.WaitFor i (1000 * 5)]

/-- The inner `for` loop of the watchdog from position `i` on, over `n`
pipelines; `flag j` is the value of `_is_run` the pipeline at position `j`
shows when it is examined. -/
def AnalysisManager.sweep_from (flag : Nat → Bool) : Nat → Nat → List ManagerAction
  | _, 0 => []
  | i, n + 1 => AnalysisManager.visit i (flag i) ++ AnalysisManager.sweep_from flag (i + 1) n

/-- One sweep of the watchdog over the `N` pipelines of `inst_vec`. -/
def AnalysisManager.sweep (N : Nat) (flag : Nat → Bool) : List ManagerAction :=
  AnalysisManager.sweep_from flag 0 N

/-- The sweeps `j, j + 1, ...` of the watchdog, `k` of them. -/
def AnalysisManager.sweeps (N : Nat) (flag : Nat → Nat → Bool) : Nat → Nat → List ManagerAction
  | _, 0 => []
  | j, k + 1 => AnalysisManager.sweep N (flag j) ++ AnalysisManager.sweeps N flag (j + 1) k

/-- The member `AnalysisManager::run()` with `N` pipelines in `inst_vec` (none
of them `NULL`), observed up to the end of the `k`-th sweep of `while (true)`:
the value returned, if the call has returned, and the actions so far.
`flag j i` is the value of `_is_run` the pipeline at position `i` shows when
sweep `j` examines it. -/
def AnalysisManager.run (N : Nat) (flag : Nat → Nat → Bool) (k : Nat) :
    Option Int × List ManagerAction :=
  if N = 0 then (some (-1), [])
  else
    (none, (List.range N).map ManagerAction.Start ++ [ManagerAction.sleep 10] ++
      AnalysisManager.sweeps N flag 0 k)

/-- Whether an action is the examination of the pipeline at position `i`. -/
def ManagerAction.is_examine (i : Nat) : ManagerAction → Bool
  | ManagerAction.examine j _ => decide (j = i)
  | _ => false

/-- The total of the waiting times requested by the `WaitFor` calls of a list
of actions, in milliseconds. -/
def waited : List ManagerAction → Nat
  | [] => 0
  | ManagerAction.WaitFor _ ms :: rest => ms + waited rest
  | _ :: rest => waited rest

/-- The actions between the examination of pipeline `i` in one sweep and its
examination in the next sweep. -/
def between_examinations (i : Nat) (sweep next : List ManagerAction) : List ManagerAction :=
  (sweep.dropWhile (fun a => !a.is_examine i)).tail ++
    next.takeWhile (fun a => !a.is_examine i)

/-! ## The capture loop `Analysis::Run` -/

/-- What one pass through the capture loop takes from outside: the value of
`_is_run` at the test `while (_is_run)`, whether `cap.isOpened()` holds after
`cap >> img`, and the frame read (`tick.img`, empty for an empty frame)
together with what `DrawInfo` takes from outside on this pass. The drawing of
overlays is not part of the embedding, so the frame goes to `DrawInfo` as
read. -/
structure CaptureStep where
  is_run : Bool
  opened : Bool
  tick : Tick

/-- The calls `Analysis::Run` makes. -/
inductive RunEvent
  | cap_open
  | cap_release
  | StartAnalysis
  | cap_read
  | SetOriginImg (img : Mat)
  | SetForegroundImg
  | DrawInfo
  | usleep
  | StopAnalysis
  | CallStop
deriving DecidableEq, Repr

/-- The loop `while (_is_run) { ... }` of `Analysis::Run` over the listed
passes, entered with the given value of `retrytime`: the pipeline afterwards,
the calls made, the value of `retrytime` if the loop is still running when
the listed passes are used up (`none` once the loop has been left), and the
value of `_is_run` at the last test made: false when the loop was left at the
test, true when it was left by the `break` or is still running. -/
def Analysis.capture_loop (open_modeling : Bool) :
    Analysis → Nat → List CaptureStep → Analysis × List RunEvent × Option Nat × Bool
  | a, retrytime, [] => (a, [], some retrytime, true)
  | a, retrytime, s :: rest =>
    if !s.is_run then (a, [], none, false)
    else if s.tick.img.isEmpty || !s.opened then
      if retrytime > 10 then (a, [RunEvent.cap_read], none, true)
      else
        let reopen :=
          if !s.opened then [RunEvent.cap_read, RunEvent.cap_release, RunEvent.cap_open]
          else [RunEvent.cap_read]
        let r := Analysis.capture_loop open_modeling a (retrytime + 1) rest
        (r.1, reopen ++ r.2.1, r.2.2)
    else
      let frame :=
        [RunEvent.cap_read, RunEvent.SetOriginImg s.tick.img] ++
          (if open_modeling then [RunEvent.SetForegroundImg] else []) ++
          [RunEvent.DrawInfo, RunEvent.usleep]
      let r := Analysis.capture_loop open_modeling (a.DrawInfo s.tick).1 0 rest
      (r.1, frame ++ r.2.1, r.2.2)

/-- Where a call of `Analysis::Run` stands: the pipeline, the calls made so
far (a call that has not returned is the last of them), whether `Run` has
returned, and the flag `_is_run` as `Run` last stored or read it. -/
structure RunResult where
  a : Analysis
  events : List RunEvent
  returned : Bool
  _is_run : Bool
deriving DecidableEq, Repr

/-- The part of `Analysis::Run()` from `StartAnalysis()` on, after the calls
`opening` on the video source: the loop runs over `steps`, and once it has been
left `StopAnalysis()` is called. `StopAnalysis()` calls `Stop()` on every
detector and on the dispatcher, and each `Stop()` waits in `join()` for its
thread to end; `joined` tells whether all these joins return. When they do,
`_is_run` is cleared at `_thread_end` and `CallStop()` signals the end; when
one does not, `Run` stays inside `StopAnalysis()`. -/
def Analysis.Run_started (a : Analysis) (open_modeling : Bool) (opening : List RunEvent)
    (start : timeval) (steps : List CaptureStep) (joined : Bool) : RunResult :=
  let a := { a with last_time := start }
  let r := Analysis.capture_loop open_modeling a 0 steps
  match r.2.2.1 with
  | some _ =>
    { a := r.1, events := opening ++ [RunEvent.StartAnalysis] ++ r.2.1, returned := false,
      _is_run := true }
  | none =>
    if joined then
      { a := r.1,
        events := opening ++ [RunEvent.StartAnalysis] ++ r.2.1 ++
          [RunEvent.StopAnalysis, RunEvent.CallStop],
        returned := true, _is_run := false }
    else
      { a := r.1,
        events := opening ++ [RunEvent.StartAnalysis] ++ r.2.1 ++ [RunEvent.StopAnalysis],
        returned := false, _is_run := r.2.2.2 }

/-- The member `Analysis::Run()`. `open_modeling` is the configuration switch
of the background model, `first_open` tells whether `cap.isOpened()` holds
after the first `cap.open`, `start` is the reading of `gettimeofday` before
the loop, `steps` lists the passes of the capture loop observed so far, and
`joined` tells whether the joins inside `StopAnalysis()` return.
The result of the second `cap.open` is not examined before the loop. -/
def Analysis.Run (a : Analysis) (open_modeling first_open : Bool) (start : timeval)
    (steps : List CaptureStep) (joined : Bool) : RunResult :=
  let retrytime : Nat := 0
  if a.algorithms.isEmpty then
    { a := a, events := [RunEvent.CallStop], returned := true, _is_run := false }
  else if !first_open then
    if retrytime > 3 then
      { a := a, events := [RunEvent.cap_open, RunEvent.CallStop], returned := true,
        _is_run := false }
    else
      Analysis.Run_started a open_modeling [RunEvent.cap_open, RunEvent.cap_open] start steps
        joined
  else
    Analysis.Run_started a open_modeling [RunEvent.cap_open] start steps joined

/-- A pass of the capture loop that reads an empty frame from an open
source. -/
def empty_step : CaptureStep :=
  { is_run := true, opened := true, tick := Tick.on_second 0 "" [] }

/-- A pass of the capture loop that finds the source closed. -/
def closed_step : CaptureStep :=
  { is_run := true, opened := false, tick := Tick.on_second 0 "" [] }

/-- A pass of the capture loop that reads a good frame. -/
def good_step : CaptureStep :=
  { is_run := true, opened := true, tick := first_tick }

/-! ## The dispatcher loop `HttpClient::Run` -/

/-- The event that ends the poll loop of `HttpClient::SendReq`: a reply, a
connection error, the server closing the connection, or the timer. -/
inductive SendOutcome
  | reply
  | connect_error
  | closed
  | timer
deriving DecidableEq, Repr

/-- The calls one iteration of the loop of `HttpClient::Run` makes on the
queue and on the network. -/
inductive DispatchAction
  | usleep
  | tail_next
  | SendReq (record : AlarmData) (outcome : SendOutcome)
deriving DecidableEq, Repr

/-- One iteration of the loop of `HttpClient::Run`: `get_tail_to_read()`; on
`NULL` a sleep and `continue`; otherwise the message body is built from the
record, `tail_next()` is called, and then `SendReq` sends the body and ends
with `outcome`. An acquire that is still blocked has made no further call. -/
def HttpClient.iteration (q : AlarmMsgQueue) (env : Env) (outcome : SendOutcome) :
    List DispatchAction × AlarmMsgQueue :=
  match get_tail_to_read q (env q) with
  | (Acquire.slot i, q1) =>
    let record := slot_at q1 i
    ([DispatchAction.tail_next, DispatchAction.SendReq record outcome], tail_next q1)
  | (Acquire.null, q1) => ([DispatchAction.usleep], q1)
  | (Acquire.blocked, q1) => ([], q1)

/-- A run of iterations of the loop of `HttpClient::Run`, each with the status
its timed wait would end with (nobody else touching the queue) and the
outcome of its send. -/
def HttpClient.iterations : AlarmMsgQueue → List (cv_status × SendOutcome) →
    List DispatchAction × AlarmMsgQueue
  | q, [] => ([], q)
  | q, (st, outcome) :: rest =>
    let r := HttpClient.iteration q (Env.quiet st) outcome
    let rs := HttpClient.iterations r.2 rest
    (r.1 ++ rs.1, rs.2)

/-! ## What a forwarding tick is expected to enqueue -/

/-- The microseconds from the clock reading `last_time` to the clock reading
`time_now`. -/
def elapsed_usec (last_time time_now : timeval) : Int :=
  (time_now.tv_sec - last_time.tv_sec) * 1000000 + (time_now.tv_usec - last_time.tv_usec)

/-- A pipeline with an active intrusion detector whose last forward was at
0 s 999 us. -/
def late_in_the_millisecond : Analysis :=
  { Analysis.single active_invade with last_time := { tv_sec := 0, tv_usec := 999 } }

/-- A tick half a second after the start of the clock, during which nobody
else touches the queue and every timed wait times out. -/
def half_second_tick : Tick :=
  { Tick.on_second 0 "1970-01-01 08:00:00" [1] with
    time_now := { tv_sec := 0, tv_usec := 500000 } }

/-- Modelled from the spec: a freshly constructed `AlgorithmConfig()` message,
every field at its default. -/
def AlgorithmConfig.new : AlgorithmConfig :=
  { algorithm_type := AlgorithmType.SEGMANTIC, roi_rects := [] }

/-- A freshly constructed detector of the given class: the constructors only
store the pointer to the pipeline. -/
def RiverThread.new (kind : DetectorKind) : RiverThread :=
  { kind := kind, config := AlgorithmConfig.new, alarm := AnalysisAlarm.new }

/-- The member `InvadeThread::LoadConfig(input_config)`: the value returned
and the detector afterwards. -/
def InvadeThread.LoadConfig (d : RiverThread) (input_config : AlgorithmConfig) :
    Int × RiverThread :=
  if input_config.roi_rects.length = 0 then (-1, d)
  else (0, { d with config := input_config })

/-- The virtual call `inst->LoadConfig(config)`: `InvadeThread` overrides the
member, every other class inherits `RiverThread::LoadConfig`, which stores the
configuration, sets the scene type of the alarm and returns 0. -/
def RiverThread.LoadConfig (d : RiverThread) (input_config : AlgorithmConfig) :
    Int × RiverThread :=
  match d.kind with
  | DetectorKind.InvadeThread => InvadeThread.LoadConfig d input_config
  | _ =>
    (0, { d with config := input_config,
                 alarm := { d.alarm with scene_type := input_config.algorithm_type } })

/-- The member `Analysis::GetAlgorithm(config)`; `none` is the `NULL`
result. -/
def Analysis.GetAlgorithm (config : AlgorithmConfig) : Option RiverThread :=
  let inst : Option RiverThread :=
    match config.algorithm_type with
    | AlgorithmType.SEGMANTIC => some (RiverThread.new DetectorKind.TensorflowThread)
    | AlgorithmType.WATERGAUGE => some (RiverThread.new DetectorKind.WaterGaugeThread)
    | AlgorithmType.WATERCOLOR => some (RiverThread.new DetectorKind.WaterColorThread)
    | AlgorithmType.INVADE => some (RiverThread.new DetectorKind.InvadeThread)
    | AlgorithmType.FLOATER => some (RiverThread.new DetectorKind.FloaterThread)
    | AlgorithmType.FISHING => some (RiverThread.new DetectorKind.FishingThread)
    | AlgorithmType.LITTER => some (RiverThread.new DetectorKind.LitterThread)
    | AlgorithmType.SWIMING => none
  match inst with
  | some d => if (d.LoadConfig config).1 ≠ 0 then none else some (d.LoadConfig config).2
  | none => none

/-- The loop of `Analysis::LoadConfig` over `config.algorithms(i)`: every
detector that `GetAlgorithm` returns is pushed to the back of `algorithms`. -/
def Analysis.load_algorithms : List AlgorithmConfig → List RiverThread
  | [] => []
  | al_config :: rest =>
    match Analysis.GetAlgorithm al_config with
    | some inst => inst :: Analysis.load_algorithms rest
    | none => Analysis.load_algorithms rest

/-- Modelled from the spec: the part of the message `AnalysisConfig` that the
pipeline runtime reads, the camera id and the configured algorithms. -/
structure AnalysisConfig where
  video_id : String
  algorithms : List AlgorithmConfig
deriving DecidableEq, Repr

/-- The member `Analysis::LoadConfig(config_path)`: the value returned and the
pipeline it has set up, if any. `file` is `none` when the path is `NULL` or
the file cannot be opened, `some none` when it does not parse, and otherwise
the parsed configuration; `ttc_loaded` tells whether the font loads. The member
`last_time` is not set here; it is set by `Run` before it is read. -/
def Analysis.LoadConfig (file : Option (Option AnalysisConfig)) (ttc_loaded : Bool) :
    Int × Option Analysis :=
  match file with
  | none => (-1, none)
  | some none => (-1, none)
  | some (some config) =>
    if !ttc_loaded then (-1, none)
    else
      (0, some { algorithms := Analysis.load_algorithms config.algorithms
                 video_id := config.video_id
                 send_queue := AlarmMsgQueue.new 50 1000
                 last_time := { tv_sec := 0, tv_usec := 0 } })

/-- A configuration with an intrusion detector that has regions of interest,
one that has none, a swimming entry (for which no detector exists) and a
floater detector. -/
def sample_config : AnalysisConfig :=
  { video_id := "7"
    algorithms :=
      [{ algorithm_type := AlgorithmType.INVADE,
         roi_rects := [{ x := 0, y := 0, width := 10, height := 10 }] },
       { algorithm_type := AlgorithmType.INVADE, roi_rects := [] },
       { algorithm_type := AlgorithmType.SWIMING, roi_rects := [] },
       { algorithm_type := AlgorithmType.FLOATER, roi_rects := [] }] }

/-! ## The shared frames of `Analysis` -/

/-- The members `origin_img`, `segment_img` and `foreground_img` of
`Analysis`. Each is guarded by a mutex of its own, so each accessor is one
step on this value. -/
structure FrameHub where
  origin_img : Mat
  segment_img : Mat
  foreground_img : Mat
deriving DecidableEq, Repr

/-- The member `Analysis::SetOriginImg(input)`: `input.copyTo(origin_img)`. -/
def Analysis.SetOriginImg (h : FrameHub) (input : Mat) : FrameHub :=
  { h with origin_img := input }

/-- The member `Analysis::GetOriginImg()`: a clone of `origin_img`. -/
def Analysis.GetOriginImg (h : FrameHub) : Mat :=
  let res := h.origin_img
  res

/-- The member `Analysis::SetSegmentImg(input)`: `input.copyTo(segment_img)`. -/
def Analysis.SetSegmentImg (h : FrameHub) (input : Mat) : FrameHub :=
  { h with segment_img := input }

/-- The member `Analysis::GetSegmentImg()`: a clone of `segment_img`. -/
def Analysis.GetSegmentImg (h : FrameHub) : Mat :=
  let res := h.segment_img
  res

/-- The member `Analysis::SetForegroundImg(input)`:
`input.copyTo(foreground_img)`. -/
def Analysis.SetForegroundImg (h : FrameHub) (input : Mat) : FrameHub :=
  { h with foreground_img := input }

/-- The member `Analysis::GetForegroundImg()`: a clone of `foreground_img`. -/
def Analysis.GetForegroundImg (h : FrameHub) : Mat :=
  let res := h.foreground_img
  res

/-- The three kinds of frame. -/
inductive FrameKind
  | Origin
  | Segment
  | Foreground
deriving DecidableEq, Repr

/-- A call of one of the three `Set...Img` members with the frame `f`. -/
structure FrameSet where
  kind : FrameKind
  f : Mat
deriving DecidableEq, Repr

/-- The effect of a `Set...Img` call. -/
def FrameHub.set (h : FrameHub) (op : FrameSet) : FrameHub :=
  match op.kind with
  | FrameKind.Origin => Analysis.SetOriginImg h op.f
  | FrameKind.Segment => Analysis.SetSegmentImg h op.f
  | FrameKind.Foreground => Analysis.SetForegroundImg h op.f

/-- The effect of a `Get...Img` call: the frame returned. -/
def FrameHub.get (h : FrameHub) (kind : FrameKind) : Mat :=
  match kind with
  | FrameKind.Origin => Analysis.GetOriginImg h
  | FrameKind.Segment => Analysis.GetSegmentImg h
  | FrameKind.Foreground => Analysis.GetForegroundImg h

/-- The shared frames after a list of `Set...Img` calls. -/
def FrameHub.run (h : FrameHub) : List FrameSet → FrameHub
  | [] => h
  | op :: rest => FrameHub.run (h.set op) rest

/-! ## The rectangle test of `InvadeThread.cpp` -/

/-- The function `crossAlgorithm2(r1, r2)` of `InvadeThread.cpp`. -/
def crossAlgorithm2 (r1 r2 : Rect) : Bool :=
  let x1 := r1.x
  let y1 := r1.y
  let x2 := r1.x + r1.width
  let y2 := r1.y + r1.height
  let x3 := r2.x
  let y3 := r2.y
  let x4 := r2.x + r2.width
  let y4 := r2.y + r2.height
  (((decide (x1 ≥ x3) && decide (x1 < x4)) || (decide (x3 ≥ x1) && decide (x3 ≤ x2))) &&
   ((decide (y1 ≥ y3) && decide (y1 < y4)) || (decide (y3 ≥ y1) && decide (y3 ≤ y2))))

/-- Two rectangles intersect as pixel sets: `cv::Rect` covers the columns
`x <= c < x + width` and the rows `y <= r < y + height`, and some pixel lies in
both. -/
def Rect.intersects (r1 r2 : Rect) : Prop :=
  max r1.x r2.x < min (r1.x + r1.width) (r2.x + r2.width) ∧
  max r1.y r2.y < min (r1.y + r1.height) (r2.y + r2.height)

/-- Two rectangles intersect as closed regions of the plane, borders
included: some point lies in both. -/
def Rect.intersects_closed (r1 r2 : Rect) : Prop :=
  max r1.x r2.x ≤ min (r1.x + r1.width) (r2.x + r2.width) ∧
  max r1.y r2.y ≤ min (r1.y + r1.height) (r2.y + r2.height)

instance (r1 r2 : Rect) : Decidable (r1.intersects r2) := by
  unfold Rect.intersects; infer_instance

instance (r1 r2 : Rect) : Decidable (r1.intersects_closed r2) := by
  unfold Rect.intersects_closed; infer_instance

/-! ## The line fit of `FishingThread::LineFitting` -/

/-- The `cv::Point` of OpenCV: two `int` coordinates. -/
structure Point where
  x : Int
  y : Int
deriving DecidableEq, Repr

/-- The value of an integer as a `size_t`, an unsigned number of 64 bits. -/
def size_t (z : Int) : Int := z % 18446744073709551616

/-- The four `size_t` counters of the summing loop of `LineFitting`. -/
structure LineSums where
  xCount : Int
  yCount : Int
  xyCount : Int
  xxCount : Int
deriving DecidableEq, Repr

/-- The summing loop of `LineFitting` from the given counters on. The products
are `int` products; they are exact for pixel coordinates. -/
def FishingThread.sum_points : LineSums → List Point → LineSums
  | c, [] => c
  | c, p :: rest =>
    FishingThread.sum_points
      { xCount := size_t (c.xCount + p.x)
        yCount := size_t (c.yCount + p.y)
        xyCount := size_t (c.xyCount + p.x * p.y)
        xxCount := size_t (c.xxCount + p.x * p.x) } rest

/-- The operands of the division in `FishingThread::LineFitting` for the points
`binWhitePoint`, as the two `size_t` values that are converted to `double`:
`pointCount * xyCount - xCount * yCount` and
`pointCount * xxCount - xCount * xCount`. The result is `none` when the
function returns before the fit (fewer than 3 or more than 70 points). -/
def FishingThread.LineFitting (binWhitePoint : List Point) : Option (Int × Int) :=
  let countpoint : Int := binWhitePoint.length
  if countpoint ≤ 2 ∨ countpoint > 70 ∨ binWhitePoint.length = 0 then none
  else
    let pointCount : Int := binWhitePoint.length
    if pointCount > 0 then
      let c := FishingThread.sum_points
        { xCount := 0, yCount := 0, xyCount := 0, xxCount := 0 } binWhitePoint
      some (size_t (pointCount * c.xyCount - c.xCount * c.yCount),
            size_t (pointCount * c.xxCount - c.xCount * c.xCount))
    else none

/-- The numerator of the least-squares slope, `n * Sum(x*y) - Sum(x) * Sum(y)`. -/
def least_squares_numerator (pts : List Point) : Int :=
  (pts.length : Int) * (pts.map (fun p => p.x * p.y)).sum -
    (pts.map (fun p => p.x)).sum * (pts.map (fun p => p.y)).sum

/-- The denominator of the least-squares slope, `n * Sum(x*x) - Sum(x)^2`. -/
def least_squares_denominator (pts : List Point) : Int :=
  (pts.length : Int) * (pts.map (fun p => p.x * p.x)).sum -
    (pts.map (fun p => p.x)).sum * (pts.map (fun p => p.x)).sum

/-- Three white pixels on a line that falls from left to right. -/
def falling_points : List Point :=
  [{ x := 10, y := 12 }, { x := 11, y := 11 }, { x := 12, y := 10 }]

/-- Three white pixels in one column. -/
def column_points : List Point :=
  [{ x := 10, y := 10 }, { x := 10, y := 11 }, { x := 10, y := 12 }]

/-- The square of side 2 at the origin. -/
def left_square : Rect := { x := 0, y := 0, width := 2, height := 2 }

/-- The square of side 2 whose left border is the right border of
`left_square`. -/
def right_square : Rect := { x := 2, y := 0, width := 2, height := 2 }

/-- The table `EncodeTable` of `base64Encode`. -/
def EncodeTable : List Char :=
  String.toList "ABCDEFGHIJKLMNOPQRSTUVWXYZabcdefghijklmnopqrstuvwxyz0123456789+/"

/-- The read `EncodeTable[i]`; the array ends with the terminating zero. -/
def EncodeTable_at (i : Nat) : Char := EncodeTable.getD i (Char.ofNat 0)

/-- The `for` loop of `base64Encode`: `n` passes remain, `Data` is what the
pointer still has ahead, `LineLength` and `strEncode` are the locals. Each
pass reads three bytes into `Tmp[1..3]`, appends four characters and, when
the line has reached 76 characters, a CR LF. -/
def base64Encode.loop : Nat → List Nat → Nat → List Char → List Nat × List Char
  | 0, Data, _, strEncode => (Data, strEncode)
  | n + 1, Data, LineLength, strEncode =>
    let Tmp1 := Data.getD 0 0
    let Tmp2 := Data.getD 1 0
    let Tmp3 := Data.getD 2 0
    let strEncode := strEncode ++
      [EncodeTable_at (Tmp1 >>> 2),
       EncodeTable_at (((Tmp1 <<< 4) ||| (Tmp2 >>> 4)) &&& 0x3F),
       EncodeTable_at (((Tmp2 <<< 2) ||| (Tmp3 >>> 6)) &&& 0x3F),
       EncodeTable_at (Tmp3 &&& 0x3F)]
    if LineLength + 4 = 76 then
      base64Encode.loop n (Data.drop 3) 0 (strEncode ++ ['\r', '\n'])
    else
      base64Encode.loop n (Data.drop 3) (LineLength + 4) strEncode

/-- The function `base64Encode(Data, DataByte)`: the loop over the
`DataByte / 3` whole triples, then the one or two bytes left over with
their padding. -/
def base64Encode (Data : List Nat) (DataByte : Nat) : List Char :=
  let after := base64Encode.loop (DataByte / 3) Data 0 []
  let Data := after.1
  let strEncode := after.2
  let Mod := DataByte % 3
  if Mod = 1 then
    let Tmp1 := Data.getD 0 0
    strEncode ++
      [EncodeTable_at ((Tmp1 &&& 0xFC) >>> 2),
       EncodeTable_at ((Tmp1 &&& 0x03) <<< 4)] ++ ['=', '=']
  else if Mod = 2 then
    let Tmp1 := Data.getD 0 0
    let Tmp2 := Data.getD 1 0
    strEncode ++
      [EncodeTable_at ((Tmp1 &&& 0xFC) >>> 2),
       EncodeTable_at (((Tmp1 &&& 0x03) <<< 4) ||| ((Tmp2 &&& 0xF0) >>> 4)),
       EncodeTable_at ((Tmp2 &&& 0x0F) <<< 2)] ++ ['=']
  else strEncode

/-- Deleting every CR LF pair from a text. -/
def delete_crlf : List Char → List Char
  | '\r' :: '\n' :: rest => delete_crlf rest
  | c :: rest => c :: delete_crlf rest
  | [] => []

/-- The Base64 alphabet of RFC 4648, table 1: value to character. -/
def rfc4648_alphabet (v : Nat) : Char :=
  if v < 26 then Char.ofNat (65 + v)
  else if v < 52 then Char.ofNat (97 + (v - 26))
  else if v < 62 then Char.ofNat (48 + (v - 52))
  else if v = 62 then '+'
  else '/'

/-- The Base64 alphabet of RFC 4648 read backwards: character to value. -/
def rfc4648_value (c : Char) : Option Nat :=
  if 65 ≤ c.toNat ∧ c.toNat ≤ 90 then some (c.toNat - 65)
  else if 97 ≤ c.toNat ∧ c.toNat ≤ 122 then some (c.toNat - 97 + 26)
  else if 48 ≤ c.toNat ∧ c.toNat ≤ 57 then some (c.toNat - 48 + 52)
  else if c = '+' then some 62
  else if c = '/' then some 63
  else none

/-- The padded Base64 encoding of RFC 4648, section 4: each group of three
bytes is a 24-bit number cut into four 6-bit values; a last group of one or
two bytes is filled with zero bits and padded with `=`. -/
def rfc4648_encode : List Nat → List Char
  | [] => []
  | [b1] =>
    let g := b1 * 65536
    [rfc4648_alphabet (g / 262144), rfc4648_alphabet (g / 4096 % 64), '=', '=']
  | [b1, b2] =>
    let g := b1 * 65536 + b2 * 256
    [rfc4648_alphabet (g / 262144), rfc4648_alphabet (g / 4096 % 64),
     rfc4648_alphabet (g / 64 % 64), '=']
  | b1 :: b2 :: b3 :: rest =>
    let g := b1 * 65536 + b2 * 256 + b3
    rfc4648_alphabet (g / 262144) :: rfc4648_alphabet (g / 4096 % 64) ::
      rfc4648_alphabet (g / 64 % 64) :: rfc4648_alphabet (g % 64) :: rfc4648_encode rest

/-- The decoding of padded Base64: four characters give a 24-bit number and
three bytes; a last group ending in `==` gives one byte, in `=` two. -/
def rfc4648_decode : List Char → Option (List Nat)
  | [] => some []
  | c1 :: c2 :: c3 :: c4 :: rest =>
    if c4 = '=' then
      if rest ≠ [] then none
      else if c3 = '=' then
        match rfc4648_value c1, rfc4648_value c2 with
        | some v1, some v2 => some [(v1 * 64 + v2) / 16]
        | _, _ => none
      else
        match rfc4648_value c1, rfc4648_value c2, rfc4648_value c3 with
        | some v1, some v2, some v3 =>
          let g := (v1 * 64 + v2) * 64 + v3
          some [g / 1024, g / 4 % 256]
        | _, _, _ => none
    else
      match rfc4648_value c1, rfc4648_value c2, rfc4648_value c3, rfc4648_value c4,
        rfc4648_decode rest with
      | some v1, some v2, some v3, some v4, some bytes =>
        let g := ((v1 * 64 + v2) * 64 + v3) * 64 + v4
        some (g / 65536 :: g / 256 % 256 :: g % 256 :: bytes)
      | _, _, _, _, _ => none
  | _ => none

/-- A sample of 58 bytes, one more than a full line of output encodes. -/
def sample_bytes : List Nat := (List.range 58).map (fun i => (i * 37 + 5) % 256)

/-! ## A stage and its `Stop()`, step by step -/

/-- Where the thread created by `Start()` stands in the `Run()` of a detector
or of `HttpClient`: before its first statement `_is_run = true`, at the test
`while (_is_run)`, inside one pass of the loop (every wait in it is timed, so
the pass ends), after the loop before `_is_run = false; CallStop()`, or
ended. -/
inductive RunAt
  | entry
  | test
  | pass
  | leaving
  | ended
deriving DecidableEq, Repr

/-- Where the caller of `RiverThread::Stop()` stands, the thread object being
present and joinable: before `_is_run = false`, inside `_thread->join()`, or
returned. -/
inductive StopAt
  | entry
  | join
  | returned
deriving DecidableEq, Repr

/-- The flag `_is_run` shared by the two threads, and where each of them
stands. -/
structure Stage where
  _is_run : Bool
  runner : RunAt
  stopper : StopAt
deriving DecidableEq, Repr

/-- Which of the two threads takes the next step. -/
inductive Turn
  | run
  | stop
deriving DecidableEq, Repr

/-- One step of the thread whose turn it is. `Run()` sets the flag, tests it
at the head of every pass and clears it on its way out; `Stop()` clears the
flag and then waits in `join()` until `Run()` has ended. -/
def Stage.step (s : Stage) : Turn → Stage
  | Turn.run =>
    match s.runner with
    | RunAt.entry => { s with _is_run := true, runner := RunAt.test }
    | RunAt.test =>
      if s._is_run then { s with runner := RunAt.pass } else { s with runner := RunAt.leaving }
    | RunAt.pass => { s with runner := RunAt.test }
    | RunAt.leaving => { s with _is_run := false, runner := RunAt.ended }
    | RunAt.ended => s
  | Turn.stop =>
    match s.stopper with
    | StopAt.entry => { s with _is_run := false, stopper := StopAt.join }
    | StopAt.join =>
      if s.runner = RunAt.ended then { s with stopper := StopAt.returned } else s
    | StopAt.returned => s

/-- The steps of an interleaving, in order. -/
def Stage.play (s : Stage) : List Turn → Stage
  | [] => s
  | t :: rest => Stage.play (s.step t) rest

/-- A stage right after `Start()`, with `Stop()` just called: the flag still
has the value `false` of the constructor, and neither thread has taken a
step. -/
def Stage.started : Stage :=
  { _is_run := false, runner := RunAt.entry, stopper := StopAt.entry }

/-! ## Properties of the alarm queue -/

theorem window_length (data : List AlarmData) (n : Nat) :
    ∀ (k t : Nat), (window data n t k).length = k := by
  intro k
  induction k with
  | zero => intro t; rfl
  | succ k ih => intro t; simp [window, ih]

theorem window_snoc (data : List AlarmData) (n : Nat) :
    ∀ (k t : Nat), t < n → k < n →
      window data n t (k + 1) =
        window data n t k ++ [data.getD (ring_index n t k) AlarmData.new] := by
  intro k
  induction k with
  | zero =>
    intro t ht _
    simp [window, ring_index, ht]
  | succ k ih =>
    intro t ht hk
    have hnext : next_index n t < n := by
      unfold next_index; split <;> omega
    have hidx : ring_index n (next_index n t) k = ring_index n t (k + 1) := by
      unfold ring_index next_index
      split <;> split <;> split <;> omega
    rw [window, ih (next_index n t) hnext (by omega), hidx]
    rfl

theorem window_set (data : List AlarmData) (n j : Nat) (r : AlarmData) :
    ∀ (k t : Nat), t < n → k ≤ n → (∀ i, i < k → ring_index n t i ≠ j) →
      window (data.set j r) n t k = window data n t k := by
  intro k
  induction k with
  | zero => intro t _ _ _; rfl
  | succ k ih =>
    intro t ht hk hne
    have hnext : next_index n t < n := by
      unfold next_index; split <;> omega
    have h0 : t ≠ j := by
      have := hne 0 (by omega)
      simpa [ring_index, ht] using this
    have hrest : ∀ i, i < k → ring_index n (next_index n t) i ≠ j := by
      intro i hi
      have := hne (i + 1) (by omega)
      have hidx : ring_index n (next_index n t) i = ring_index n t (i + 1) := by
        unfold ring_index next_index
        split <;> split <;> split <;> omega
      rwa [hidx]
    simp only [window]
    rw [ih (next_index n t) hnext (by omega) hrest]
    congr 1
    simp [List.getD, List.getElem?_set, Ne.symm h0]

theorem get_head_to_write_quiet (q : AlarmMsgQueue) (st : cv_status) :
    get_head_to_write q (Waits.quiet st q) =
      if q._timeout < 0 then
        (if q._element_size < q._size - 1 then (Acquire.slot q._head, q) else (Acquire.blocked, q))
      else if q._element_size ≥ q._size - 1 then
        (if st = cv_status.timeout then (Acquire.null, q) else (Acquire.slot q._head, q))
      else (Acquire.slot q._head, q) := by
  unfold get_head_to_write Waits.quiet
  by_cases h1 : q._timeout < 0
  · by_cases h2 : q._element_size < q._size - 1 <;> simp [h1, h2, wait_pred]
  · simp [h1]

theorem get_tail_to_read_quiet (q : AlarmMsgQueue) (st : cv_status) :
    get_tail_to_read q (Waits.quiet st q) =
      if q._timeout < 0 then
        (if q._element_size > 0 then (Acquire.slot q._tail, q) else (Acquire.blocked, q))
      else if q._element_size ≤ 0 then
        (if st = cv_status.timeout then (Acquire.null, q) else (Acquire.slot q._tail, q))
      else (Acquire.slot q._tail, q) := by
  unfold get_tail_to_read Waits.quiet
  by_cases h1 : q._timeout < 0
  · by_cases h2 : q._element_size > 0 <;> simp [h1, h2, wait_pred]
  · simp [h1]

theorem Session.shape_init (C timeout : Int) (hC : 2 ≤ C) :
    (Session.init C timeout).Shape (C - 1).toNat 0 0 0 := by
  constructor <;> simp [Session.init, AlarmMsgQueue.new, window] <;> omega

theorem Session.shape_step (s : Session) (n t h k : Nat) (c : Call)
    (hs : s.Shape n t h k) (hc : c.respects s = true) :
    ∃ t1 h1 k1 : Nat, (s.step c).Shape n t1 h1 k1 := by
  obtain ⟨hsz, htl, hhd, hoc, hn, ht, hh, hk, hap, hlen, hw, hr, hlog⟩ := hs
  cases c with
  | get_head_to_write st =>
    refine ⟨t, h, k, ?_⟩
    simp only [Call.respects, decide_eq_true_eq] at hc
    simp only [Session.step, get_head_to_write_quiet]
    split_ifs with c1 c2 c3 c4
    all_goals refine ⟨hsz, htl, hhd, hoc, hn, ht, hh, hk, hap, hlen, ?_, hr, hlog⟩
    all_goals intro i hi
    all_goals simp only [Acquire.pointer, Option.some.injEq, reduceCtorEq] at hi
    · subst hi; exact ⟨hhd, by omega⟩
    · exact absurd (hc (by omega) c3) c4
    · subst hi; exact ⟨hhd, by omega⟩
  | get_tail_to_read st =>
    refine ⟨t, h, k, ?_⟩
    simp only [Call.respects, decide_eq_true_eq] at hc
    simp only [Session.step, get_tail_to_read_quiet]
    split_ifs with c1 c2 c3 c4
    all_goals refine ⟨hsz, htl, hhd, hoc, hn, ht, hh, hk, hap, hlen, hw, ?_, ?_⟩
    all_goals first
      | exact hlog
      | intro i hi
    all_goals simp only [Acquire.pointer, Option.some.injEq, reduceCtorEq] at hi
    · subst hi; exact ⟨htl, by omega⟩
    · exact absurd (hc (by omega) c3) c4
    · subst hi; exact ⟨htl, by omega⟩
  | populate r =>
    refine ⟨t, h, k, ?_⟩
    simp only [Call.respects] at hc
    obtain ⟨i, hi⟩ := Option.isSome_iff_exists.mp hc
    obtain ⟨hih, hkn⟩ := hw i hi
    have hidx : i.toNat = h := by omega
    have hstep : s.step (Call.populate r) = { s with q := store s.q i r } := by
      simp [Session.step, hi]
    rw [hstep]
    simp only [store, hidx]
    refine ⟨hsz, htl, hhd, hoc, hn, ht, hh, hk, hap, by simpa using hlen, hw, hr, ?_⟩
    · have hset := window_set s.q._data n h r k t ht hk (by
        intro j hj
        unfold ring_index
        split <;> omega)
      simp only [hset]
      exact hlog
  | head_next =>
    simp only [Call.respects] at hc
    obtain ⟨i, hi⟩ := Option.isSome_iff_exists.mp hc
    obtain ⟨hih, hkn⟩ := hw i hi
    refine ⟨t, next_index n h, k + 1, ?_⟩
    have hring : ring_index n t k = h := by
      unfold ring_index; split <;> omega
    constructor
    · simpa [Session.step, head_next] using hsz
    · simpa [Session.step, head_next] using htl
    · simp only [Session.step, head_next, next_index, hhd, hsz]
      split <;> split <;> first | rfl | omega
    · simp [Session.step, head_next, hoc]
    · exact hn
    · exact ht
    · unfold next_index; split <;> omega
    · omega
    · unfold next_index; split <;> omega
    · simpa [Session.step, head_next] using hlen
    · intro j hj; simp [Session.step] at hj
    · intro j hj
      have := hr j (by simpa [Session.step] using hj)
      exact ⟨this.1, by omega⟩
    · simp only [Session.step, head_next, slot_at, hhd, Int.toNat_ofNat]
      rw [window_snoc _ _ k t ht hkn, hring, hlog, List.append_assoc]
  | tail_next =>
    simp only [Call.respects] at hc
    obtain ⟨i, hi⟩ := Option.isSome_iff_exists.mp hc
    obtain ⟨hit, hk0⟩ := hr i hi
    obtain ⟨k0, rfl⟩ : ∃ k0, k = k0 + 1 := ⟨k - 1, by omega⟩
    refine ⟨next_index n t, h, k0, ?_⟩
    constructor
    · simpa [Session.step, tail_next] using hsz
    · simp only [Session.step, tail_next, next_index, htl, hsz]
      split <;> split <;> first | rfl | omega
    · simpa [Session.step, tail_next] using hhd
    · simp [Session.step, tail_next, hoc]
    · exact hn
    · unfold next_index; split <;> omega
    · exact hh
    · omega
    · unfold next_index; split <;> omega
    · simpa [Session.step, tail_next] using hlen
    · intro j hj
      have := hw j (by simpa [Session.step] using hj)
      exact ⟨this.1, by omega⟩
    · intro j hj; simp [Session.step] at hj
    · simp only [Session.step, tail_next, slot_at, htl, Int.toNat_ofNat]
      rw [hlog, window, List.append_assoc]
      rfl

theorem Session.shape_run (n : Nat) :
    ∀ (cs : List Call) (s : Session), (∃ t h k : Nat, s.Shape n t h k) →
      s.respects cs = true → ∃ t h k : Nat, (s.run cs).Shape n t h k := by
  intro cs
  induction cs with
  | nil => intro s hs _; exact hs
  | cons c cs ih =>
    intro s hs hc
    simp only [Session.respects, Bool.and_eq_true] at hc
    obtain ⟨t, h, k, hsh⟩ := hs
    exact ih (s.step c) (Session.shape_step s n t h k c hsh hc.1) hc.2

theorem Session.respects_take :
    ∀ (cs : List Call) (s : Session) (j : Nat),
      s.respects cs = true → s.respects (cs.take j) = true := by
  intro cs
  induction cs with
  | nil => intro s j _; simp [Session.respects]
  | cons c cs ih =>
    intro s j hc
    cases j with
    | zero => simp [Session.respects]
    | succ j =>
      simp only [Session.respects, Bool.and_eq_true, List.take_succ_cons] at hc ⊢
      exact ⟨hc.1, ih (s.step c) j hc.2⟩

theorem call_respects_of_cycles (s : Session) (c : Call) (h : c.cycles s = true) :
    c.respects s = true := by
  cases c <;> simp_all [Call.cycles]

theorem history_respects_of_cycles :
    ∀ (cs : List Call) (s : Session), s.cycles cs = true → s.respects cs = true := by
  intro cs
  induction cs with
  | nil => intro s _; rfl
  | cons c cs ih =>
    intro s hc
    simp only [Session.cycles, Session.respects, Bool.and_eq_true] at hc ⊢
    exact ⟨call_respects_of_cycles s c hc.1, ih (s.step c) hc.2⟩

theorem Session.loginv_step (s : Session) (n : Nat) (c : Call)
    (hs : s.LogInv n) (hc : c.cycles s = true) : (s.step c).LogInv n := by
  obtain ⟨⟨t, h, k, hsh⟩, hret⟩ := hs
  refine ⟨Session.shape_step s n t h k c hsh (call_respects_of_cycles s c hc), ?_⟩
  cases c with
  | get_head_to_write st =>
    have hq : (get_head_to_write s.q (Waits.quiet st s.q)).2 = s.q := by
      rw [get_head_to_write_quiet]; split_ifs <;> rfl
    simpa [Session.step, hq] using hret
  | get_tail_to_read st =>
    simp only [Call.cycles, Bool.and_eq_true, Option.isNone_iff_eq_none] at hc
    simp only [hc.2, Option.isSome_none, Bool.false_eq_true, if_false, List.append_nil] at hret
    have hq : (get_tail_to_read s.q (Waits.quiet st s.q)).2 = s.q := by
      rw [get_tail_to_read_quiet]; split_ifs <;> rfl
    have hp : (get_tail_to_read s.q (Waits.quiet st s.q)).1.pointer = some s.q._tail ∨
        (get_tail_to_read s.q (Waits.quiet st s.q)).1.pointer = none := by
      rw [get_tail_to_read_quiet]; split_ifs <;> simp [Acquire.pointer]
    rcases hp with hp | hp <;> simp [Session.step, hq, hp, hret]
  | populate r =>
    simp only [Call.cycles, Call.respects] at hc
    obtain ⟨i, hi⟩ := Option.isSome_iff_exists.mp hc
    obtain ⟨hih, hkn⟩ := hsh.wheld i hi
    have hidx : i.toNat = h := by omega
    have hstep : s.step (Call.populate r) = { s with q := store s.q i r } := by
      simp [Session.step, hi]
    rw [hstep]
    cases hr : s.rhold with
    | none => simpa [hr] using hret
    | some j =>
      obtain ⟨_, hk0⟩ := hsh.rheld j hr
      have hne : h ≠ t := by
        have := hsh.apart
        have := hsh.t_lt
        omega
      have htn : s.q._tail.toNat = t := by
        have := hsh.tail_eq
        omega
      simp only [hr, Option.isSome_some, if_true] at hret
      simp only [hr, Option.isSome_some, if_true, store, slot_at, hidx, htn]
      rw [hret]
      simp [slot_at, htn, List.getD, List.getElem?_set, hne]
  | head_next =>
    simpa [Session.step, head_next, slot_at] using hret
  | tail_next =>
    simp only [Call.cycles, Call.respects] at hc
    obtain ⟨i, hi⟩ := Option.isSome_iff_exists.mp hc
    simp only [hi, Option.isSome_some, if_true] at hret
    simp [Session.step, hret]

theorem Session.loginv_run (n : Nat) :
    ∀ (cs : List Call) (s : Session), s.LogInv n → s.cycles cs = true →
      (s.run cs).LogInv n := by
  intro cs
  induction cs with
  | nil => intro s hs _; exact hs
  | cons c cs ih =>
    intro s hs hc
    simp only [Session.cycles, Bool.and_eq_true] at hc
    exact ih (s.step c) (Session.loginv_step s n c hs hc.1) hc.2

theorem Session.loginv_init (C timeout : Int) (hC : 2 ≤ C) :
    (Session.init C timeout).LogInv (C - 1).toNat :=
  ⟨⟨0, 0, 0, Session.shape_init C timeout hC⟩, by simp [Session.init]⟩

theorem write_attempts_fill :
    ∀ (ws : List (Env × (AlarmData → AlarmData))) (q : AlarmMsgQueue) (a : Nat),
      0 ≤ q._timeout → q._element_size = (a : Int) → (ws ≠ [] → q._head = (a : Int)) →
      (a : Int) + ws.length ≤ q._size - 1 →
      (write_attempts q ws).1 = (List.range' a ws.length).map (fun i => Acquire.slot (i : Int)) ∧
      (write_attempts q ws).2._element_size = (a : Int) + ws.length ∧
      (write_attempts q ws).2._size = q._size ∧
      (write_attempts q ws).2._timeout = q._timeout := by
  intro ws
  induction ws with
  | nil => intro q a _ ho _ _; simp [write_attempts, ho]
  | cons w rest ih =>
    intro q a ht ho hh hcap
    obtain ⟨env, fill⟩ := w
    have hhead : q._head = (a : Int) := hh (by simp)
    have hlen : ((env, fill) :: rest).length = rest.length + 1 := rfl
    rw [hlen] at hcap
    push_cast at hcap
    have hget : get_head_to_write q (env q) = (Acquire.slot q._head, q) := by
      unfold get_head_to_write
      rw [if_neg (by omega), if_neg (by omega)]
    have hwa : write_attempt q env fill =
        (Acquire.slot q._head, head_next (store q q._head (fill (slot_at q q._head)))) := by
      simp [write_attempt, hget]
    obtain ⟨h1, h2, h3, h4⟩ := ih (head_next (store q q._head (fill (slot_at q q._head)))) (a + 1)
      (by simpa [head_next, store] using ht)
      (by simp [head_next, store, ho])
      (by
        intro hne
        have : 1 ≤ rest.length := by
          cases rest with
          | nil => exact absurd rfl hne
          | cons _ _ => simp
        simp only [head_next, store, hhead]
        rw [if_neg (by omega)]
        push_cast; rfl)
      (by simp only [head_next, store]; push_cast; omega)
    simp only [write_attempts, hwa, reduceCtorEq, if_false]
    refine ⟨?_, ?_, ?_, ?_⟩
    · rw [h1, hhead]; simp [List.range'_succ]
    · rw [h2]; push_cast; omega
    · rw [h3]; simp [head_next, store]
    · rw [h4]; simp [head_next, store]

/-- C1 (as stated, refuted): on a queue of size 2 a `tail_next` that no acquire
preceded leaves the occupancy at -1, and two `head_next` that no acquire
preceded leave it at 2, above `C - 1 = 1`. -/
theorem c1_unguarded_commits_leave_bounds :
    (Session.run (Session.init 2 0) [Call.tail_next]).q._element_size = -1 ∧
    (Session.run (Session.init 2 0) [Call.head_next, Call.head_next]).q._element_size = 2 := by
  decide

/-- C1 (amended): for a queue constructed with size `C >= 2` and every finite
sequence of calls that respects the acquire/commit protocol (each `head_next`
commits a pointer obtained from `get_head_to_write`, each `tail_next` one
obtained from `get_tail_to_read`, a timed wait on the unchanged queue ends by
its timeout), the occupancy counter satisfies `0 <= occupied <= C - 1` after
every call. -/
theorem c1_occupancy_bounds (C timeout : Int) (hC : 2 ≤ C) (cs : List Call)
    (hcs : Session.respects (Session.init C timeout) cs = true) (j : Nat) :
    0 ≤ (Session.run (Session.init C timeout) (cs.take j)).q._element_size ∧
    (Session.run (Session.init C timeout) (cs.take j)).q._element_size ≤ C - 1 := by
  obtain ⟨t, h, k, hsh⟩ := Session.shape_run (C - 1).toNat (cs.take j) (Session.init C timeout)
    ⟨0, 0, 0, Session.shape_init C timeout hC⟩ (Session.respects_take cs _ j hcs)
  have h1 := hsh.occ_eq
  have h2 := hsh.k_le
  omega

/-- C1 (amended), at a concrete run on a queue of size 3 (two accepted
writes, a refused one, a read, one more write), after its fourth call. -/
theorem c1_occupancy_bounds_witness :
    (2 : Int) ≤ 3 ∧
    Session.respects (Session.init 3 0) history_refused_write = true ∧
    0 ≤ (Session.run (Session.init 3 0) (history_refused_write.take 4)).q._element_size ∧
    (Session.run (Session.init 3 0) (history_refused_write.take 4)).q._element_size ≤ 3 - 1 :=
  ⟨by decide, by decide,
   c1_occupancy_bounds 3 0 (by decide) history_refused_write (by decide) 4⟩

/-- C2: for a queue constructed with size `C >= 2` and timeout `>= 0`, starting
empty and with no reads, each of the first `C - 1` write attempts obtains a
slot (the slots `0, 1, ..., C - 2` in this order, whatever the surroundings do),
and the next `get_head_to_write`, whose timed wait times out, returns `NULL`:
the effective capacity is `C - 1` records. -/
theorem c2_effective_capacity (C timeout : Int) (_hC : 2 ≤ C) (ht : 0 ≤ timeout)
    (ws : List (Env × (AlarmData → AlarmData))) (hlen : (ws.length : Int) = C - 1)
    (w : Waits) (hw : w.timed.status = cv_status.timeout) :
    (write_attempts (AlarmMsgQueue.new C timeout) ws).1 =
      (List.range ws.length).map (fun i => Acquire.slot (i : Int)) ∧
    (get_head_to_write (write_attempts (AlarmMsgQueue.new C timeout) ws).2 w).1 = Acquire.null := by
  obtain ⟨h1, h2, h3, h4⟩ := write_attempts_fill ws (AlarmMsgQueue.new C timeout) 0
    (by simpa [AlarmMsgQueue.new] using ht) (by simp [AlarmMsgQueue.new])
    (by intro _; simp [AlarmMsgQueue.new]) (by simp [AlarmMsgQueue.new]; omega)
  refine ⟨by rw [h1, List.range_eq_range'], ?_⟩
  have h3' : (write_attempts (AlarmMsgQueue.new C timeout) ws).2._size = C := by
    rw [h3]; rfl
  have h4' : (write_attempts (AlarmMsgQueue.new C timeout) ws).2._timeout = timeout := by
    rw [h4]; rfl
  unfold get_head_to_write
  rw [if_neg (by omega), if_pos (by omega), if_pos hw]

/-- C2, at a concrete queue: size 3, timeout 0, two accepted writes and a
third acquire that times out. -/
theorem c2_effective_capacity_witness :
    (2 : Int) ≤ 3 ∧ (0 : Int) ≤ 0 ∧
    (([(Env.quiet cv_status.timeout, id), (Env.quiet cv_status.timeout, id)] :
        List (Env × (AlarmData → AlarmData))).length : Int) = 3 - 1 ∧
    (Waits.quiet cv_status.timeout (AlarmMsgQueue.new 3 0)).timed.status = cv_status.timeout ∧
    (write_attempts (AlarmMsgQueue.new 3 0)
        [(Env.quiet cv_status.timeout, id), (Env.quiet cv_status.timeout, id)]).1 =
      (List.range ([(Env.quiet cv_status.timeout, id), (Env.quiet cv_status.timeout, id)] :
        List (Env × (AlarmData → AlarmData))).length).map (fun i => Acquire.slot (i : Int)) ∧
    (get_head_to_write (write_attempts (AlarmMsgQueue.new 3 0)
        [(Env.quiet cv_status.timeout, id), (Env.quiet cv_status.timeout, id)]).2
      (Waits.quiet cv_status.timeout (AlarmMsgQueue.new 3 0))).1 = Acquire.null :=
  ⟨by decide, by decide, by decide, rfl,
   c2_effective_capacity 3 0 (by decide) (by decide) _ (by decide) _ rfl⟩

theorem wait_pred_some (pred : AlarmMsgQueue → Bool) :
    ∀ (ws : List AlarmMsgQueue) (q s : AlarmMsgQueue),
      wait_pred pred q ws = some s → pred s = true := by
  intro ws
  induction ws with
  | nil =>
    intro q s h
    simp only [wait_pred] at h
    split at h
    · cases h; assumption
    · cases h
  | cons q1 rest ih =>
    intro q s h
    simp only [wait_pred] at h
    split at h
    · cases h; assumption
    · exact ih q1 s h

theorem wait_pred_none (pred : AlarmMsgQueue → Bool) :
    ∀ (ws : List AlarmMsgQueue) (q : AlarmMsgQueue),
      wait_pred pred q ws = none ↔ ∀ s ∈ q :: ws, pred s = false := by
  intro ws
  induction ws with
  | nil =>
    intro q
    simp only [wait_pred]
    split <;> simp_all
  | cons q1 rest ih =>
    intro q
    simp only [wait_pred]
    split
    · simp_all
    · rw [ih q1]; simp_all

/-- First in, first out when no timed wait is woken spuriously: for every
queue of size `C >= 2` and every interleaving of calls in which the producer
cycles through `get_head_to_write`, populate, `head_next` and the consumer
through `get_tail_to_read`, read, `tail_next`, and in which a timed wait on the
unchanged queue ends by its timeout, the records returned by `get_tail_to_read` are,
in order, the first records committed by `head_next`, and so are the records
as they stand when `tail_next` retires them (none skipped or repeated); and
as long as the consumer holds a slot, the record in it is the one that was
returned last (none overwritten before it has been read). -/
theorem fifo_when_waits_time_out (C timeout : Int) (hC : 2 ≤ C) (cs : List Call)
    (hcs : Session.cycles (Session.init C timeout) cs = true) :
    (Session.run (Session.init C timeout) cs).returned =
      (Session.run (Session.init C timeout) cs).committed.take
        (Session.run (Session.init C timeout) cs).returned.length ∧
    (Session.run (Session.init C timeout) cs).retired =
      (Session.run (Session.init C timeout) cs).committed.take
        (Session.run (Session.init C timeout) cs).retired.length ∧
    (∀ i, (Session.run (Session.init C timeout) cs).rhold = some i →
      (Session.run (Session.init C timeout) cs).returned.getLast? =
        some (slot_at (Session.run (Session.init C timeout) cs).q i)) := by
  obtain ⟨⟨t, h, k, hsh⟩, hret⟩ :=
    Session.loginv_run (C - 1).toNat cs (Session.init C timeout)
      (Session.loginv_init C timeout hC) hcs
  generalize Session.run (Session.init C timeout) cs = s at hsh hret
  have hlog := hsh.log
  refine ⟨?_, by rw [hlog]; simp, ?_⟩
  · cases hr : s.rhold with
    | none =>
      simp only [hr, Option.isSome_none, Bool.false_eq_true, if_false, List.append_nil] at hret
      rw [hret, hlog]; simp
    | some j =>
      obtain ⟨_, hk0⟩ := hsh.rheld j hr
      obtain ⟨k0, rfl⟩ : ∃ k0, k = k0 + 1 := ⟨k - 1, by omega⟩
      have htn : s.q._tail.toNat = t := by
        have := hsh.tail_eq
        omega
      simp only [hr, Option.isSome_some, if_true, slot_at, htn] at hret
      rw [hret, hlog, window]
      simp [List.take_append_eq_append_take]
  · intro i hi
    obtain ⟨hit, _⟩ := hsh.rheld i hi
    have hte := hsh.tail_eq
    simp only [hi, Option.isSome_some, if_true] at hret
    rw [hret, hte, hit]
    simp

/-- First in, first out at a concrete interleaving on a queue of size 3: two
records are written, the first is read while a third is being written, and all
three come out in the order they went in, the third still held by the
consumer. -/
theorem fifo_when_waits_time_out_witness :
    (2 : Int) ≤ 3 ∧
    Session.cycles (Session.init 3 1000) history_three_records = true ∧
    (Session.run (Session.init 3 1000) history_three_records).returned =
      (Session.run (Session.init 3 1000) history_three_records).committed.take
        (Session.run (Session.init 3 1000) history_three_records).returned.length ∧
    (Session.run (Session.init 3 1000) history_three_records).retired =
      (Session.run (Session.init 3 1000) history_three_records).committed.take
        (Session.run (Session.init 3 1000) history_three_records).retired.length ∧
    (∀ i, (Session.run (Session.init 3 1000) history_three_records).rhold = some i →
      (Session.run (Session.init 3 1000) history_three_records).returned.getLast? =
        some (slot_at (Session.run (Session.init 3 1000) history_three_records).q i)) :=
  ⟨by decide, by decide,
   fifo_when_waits_time_out 3 1000 (by decide) history_three_records (by decide)⟩

/-- C3 (the code at the failing input): on a queue of size 2 with timeout
1000 ms, producer and consumer go through their acquire, use, commit cycles.
When the timed wait of the consumer on the empty queue is woken spuriously,
`get_tail_to_read` hands out the retired slot again: one record was committed,
two are returned, both the record `a`, and the occupancy ends at -1. When the
timed wait of the producer on the full queue is woken spuriously, the record
`a` is overwritten before it is read: `a` and `b` were committed and the first
record returned is `b`. Up to the spurious wake-up both histories are among
those in which every timed wait on the unchanged queue times out. -/
theorem c3_spurious_wakeup_breaks_fifo :
    (Session.takes_turns (Session.init 2 1000) history_spurious_read = true ∧
     (Session.run (Session.init 2 1000) history_spurious_read).committed =
       [AlarmData.sample "a"] ∧
     (Session.run (Session.init 2 1000) history_spurious_read).returned =
       [AlarmData.sample "a", AlarmData.sample "a"] ∧
     (Session.run (Session.init 2 1000) history_spurious_read).retired =
       [AlarmData.sample "a", AlarmData.sample "a"] ∧
     (Session.run (Session.init 2 1000) history_spurious_read).q._element_size = -1 ∧
     Session.cycles (Session.init 2 1000) (history_spurious_read.take 5) = true) ∧
    (Session.takes_turns (Session.init 2 1000) history_spurious_write = true ∧
     (Session.run (Session.init 2 1000) history_spurious_write).committed =
       [AlarmData.sample "a", AlarmData.sample "b"] ∧
     (Session.run (Session.init 2 1000) history_spurious_write).returned =
       [AlarmData.sample "b"] ∧
     Session.cycles (Session.init 2 1000) (history_spurious_write.take 3) = true) := by
  decide

/-- C4: whenever `get_head_to_write` returns `NULL`, it does so on the timed
branch, on a full queue, after a wait that timed out, and the call has written
nothing: the queue at its return is the queue the wait handed back, so when no
other thread touched the queue during the wait, head, tail, occupancy and every
slot are as before the call. -/
theorem c4_null_write_changes_nothing (q : AlarmMsgQueue) (w : Waits)
    (hnull : (get_head_to_write q w).1 = Acquire.null) :
    (0 ≤ q._timeout ∧ q._size - 1 ≤ q._element_size ∧ w.timed.status = cv_status.timeout) ∧
    (get_head_to_write q w).2 = w.timed.queue ∧
    (w.timed.queue = q → (get_head_to_write q w).2 = q) := by
  unfold get_head_to_write at hnull ⊢
  by_cases h1 : q._timeout < 0
  · rw [if_pos h1] at hnull
    split at hnull <;> cases hnull
  · rw [if_neg h1] at hnull ⊢
    by_cases h2 : q._element_size ≥ q._size - 1
    · rw [if_pos h2] at hnull ⊢
      by_cases h3 : w.timed.status = cv_status.timeout
      · rw [if_pos h3]
        exact ⟨⟨by omega, h2, h3⟩, rfl, fun h => h⟩
      · rw [if_neg h3] at hnull; cases hnull
    · rw [if_neg h2] at hnull; cases hnull

/-- C4, at a full queue of size 2 whose wait times out undisturbed. -/
theorem c4_null_write_changes_nothing_witness :
    (get_head_to_write full_queue (Waits.quiet cv_status.timeout full_queue)).1 = Acquire.null ∧
    ((0 ≤ full_queue._timeout ∧ full_queue._size - 1 ≤ full_queue._element_size ∧
        (Waits.quiet cv_status.timeout full_queue).timed.status = cv_status.timeout) ∧
      (get_head_to_write full_queue (Waits.quiet cv_status.timeout full_queue)).2 =
        (Waits.quiet cv_status.timeout full_queue).timed.queue ∧
      ((Waits.quiet cv_status.timeout full_queue).timed.queue = full_queue →
        (get_head_to_write full_queue (Waits.quiet cv_status.timeout full_queue)).2 =
          full_queue)) :=
  ⟨by decide,
   c4_null_write_changes_nothing full_queue (Waits.quiet cv_status.timeout full_queue)
     (by decide)⟩

/-- C5 (the code at the failing input): on a full queue of size 2 with timeout
1000 ms, a timed wait that is woken spuriously (status `no_timeout`, queue
untouched) makes `get_head_to_write` return the slot `_data[0]` although the
occupancy still equals `C - 1`. -/
theorem c5_spurious_wakeup_returns_slot_of_full_queue :
    full_queue._timeout = 1000 ∧
    full_queue._element_size = full_queue._size - 1 ∧
    get_head_to_write full_queue (Waits.quiet cv_status.no_timeout full_queue) =
      (Acquire.slot 0, full_queue) ∧
    (head_next full_queue)._element_size = full_queue._size := by
  decide

/-- C6 (the code at the failing input): on an empty queue of size 2 with
timeout 1000 ms, a timed wait that is woken spuriously (status `no_timeout`,
queue untouched) makes `get_tail_to_read` return the slot `_data[0]` although
the occupancy is 0; when the wait times out it returns `NULL`. -/
theorem c6_spurious_wakeup_returns_slot_of_empty_queue :
    (AlarmMsgQueue.new 2 1000)._element_size = 0 ∧
    get_tail_to_read (AlarmMsgQueue.new 2 1000)
        (Waits.quiet cv_status.no_timeout (AlarmMsgQueue.new 2 1000)) =
      (Acquire.slot 0, AlarmMsgQueue.new 2 1000) ∧
    get_tail_to_read (AlarmMsgQueue.new 2 1000)
        (Waits.quiet cv_status.timeout (AlarmMsgQueue.new 2 1000)) =
      (Acquire.null, AlarmMsgQueue.new 2 1000) := by
  decide

/-- C7 (as stated, refuted): on a queue constructed with size 3 and timeout 0,
four write attempts with no read in between are answered slot, slot, `NULL`,
`NULL`: two records are accepted and two dropped, not three and one. -/
theorem c7_size_three_accepts_two :
    (write_attempts (AlarmMsgQueue.new 3 0)
        (List.replicate 4 (Env.quiet cv_status.timeout, fun _ => AlarmData.sample "a"))).1 =
      [Acquire.slot 0, Acquire.slot 1, Acquire.null, Acquire.null] ∧
    ¬ (accepted (write_attempts (AlarmMsgQueue.new 3 0)
        (List.replicate 4 (Env.quiet cv_status.timeout, fun _ => AlarmData.sample "a"))).1 = 3 ∧
       dropped (write_attempts (AlarmMsgQueue.new 3 0)
        (List.replicate 4 (Env.quiet cv_status.timeout, fun _ => AlarmData.sample "a"))).1 = 1) := by
  decide

/-- C7 (amended): for a queue constructed with size 3 and a timeout of 0 ms,
when the producer makes 4 write attempts (whatever the four records) before
the consumer retires any record, exactly 2 records are accepted, the first
two, and exactly 2 are dropped; the consumer then observes exactly those two,
in order, and after them finds the queue empty. -/
theorem c7_four_writes_into_size_three (r1 r2 r3 r4 : AlarmData) :
    accepted (write_attempts (AlarmMsgQueue.new 3 0)
      [(Env.quiet cv_status.timeout, fun _ => r1), (Env.quiet cv_status.timeout, fun _ => r2),
       (Env.quiet cv_status.timeout, fun _ => r3), (Env.quiet cv_status.timeout, fun _ => r4)]).1
      = 2 ∧
    dropped (write_attempts (AlarmMsgQueue.new 3 0)
      [(Env.quiet cv_status.timeout, fun _ => r1), (Env.quiet cv_status.timeout, fun _ => r2),
       (Env.quiet cv_status.timeout, fun _ => r3), (Env.quiet cv_status.timeout, fun _ => r4)]).1
      = 2 ∧
    (read_attempts (write_attempts (AlarmMsgQueue.new 3 0)
      [(Env.quiet cv_status.timeout, fun _ => r1), (Env.quiet cv_status.timeout, fun _ => r2),
       (Env.quiet cv_status.timeout, fun _ => r3), (Env.quiet cv_status.timeout, fun _ => r4)]).2
      [Env.quiet cv_status.timeout, Env.quiet cv_status.timeout,
       Env.quiet cv_status.timeout]).1 = [some r1, some r2, none] := by
  refine ⟨?_, ?_, ?_⟩ <;> rfl

/-- C8: for a queue with timeout `< 0`, `get_head_to_write` never returns
`NULL`; it returns a slot only in a state where `occupied < C - 1`, the slot
being the head of that state, and it is still blocked exactly when the queue
is full at the call and at every wake-up so far. -/
theorem c8_untimed_write_never_null (q : AlarmMsgQueue) (w : Waits) (ht : q._timeout < 0) :
    (get_head_to_write q w).1 ≠ Acquire.null ∧
    (∀ i, (get_head_to_write q w).1 = Acquire.slot i →
      (get_head_to_write q w).2._element_size < (get_head_to_write q w).2._size - 1 ∧
      i = (get_head_to_write q w).2._head) ∧
    ((get_head_to_write q w).1 = Acquire.blocked ↔
      ∀ s ∈ q :: w.untimed, s._size - 1 ≤ s._element_size) := by
  unfold get_head_to_write
  rw [if_pos ht]
  cases hw : wait_pred (fun s => decide (s._element_size < s._size - 1)) q w.untimed with
  | none =>
    have hall := (wait_pred_none _ w.untimed q).mp hw
    refine ⟨by simp, by simp, ?_⟩
    simp only [true_iff]
    intro s hs
    have := hall s hs
    simp only [decide_eq_false_iff_not] at this
    omega
  | some s =>
    have hp := wait_pred_some _ w.untimed q s hw
    simp only [decide_eq_true_eq] at hp
    refine ⟨by simp, ?_, ?_⟩
    · intro i hi
      simp only [Acquire.slot.injEq] at hi
      exact ⟨hp, hi.symm⟩
    · simp only [reduceCtorEq, false_iff]
      intro hall
      have hne : wait_pred (fun s => decide (s._element_size < s._size - 1)) q w.untimed = none := by
        rw [wait_pred_none]
        intro s hs
        have := hall s hs
        simp only [decide_eq_false_iff_not]
        omega
      rw [hw] at hne
      cases hne

/-- C8, at a full queue with timeout -1 that is woken twice, first with the
queue still full and then after a record has been retired. -/
theorem c8_untimed_write_never_null_witness :
    full_queue_untimed._timeout < 0 ∧
    ((get_head_to_write full_queue_untimed wake_after_retire).1 ≠ Acquire.null ∧
     (∀ i, (get_head_to_write full_queue_untimed wake_after_retire).1 = Acquire.slot i →
       (get_head_to_write full_queue_untimed wake_after_retire).2._element_size <
         (get_head_to_write full_queue_untimed wake_after_retire).2._size - 1 ∧
       i = (get_head_to_write full_queue_untimed wake_after_retire).2._head) ∧
     ((get_head_to_write full_queue_untimed wake_after_retire).1 = Acquire.blocked ↔
       ∀ s ∈ full_queue_untimed :: wake_after_retire.untimed,
         s._size - 1 ≤ s._element_size)) :=
  ⟨by decide, c8_untimed_write_never_null full_queue_untimed wake_after_retire (by decide)⟩

/-! ## Properties of the detectors and of the aggregator -/

/-- C9 (the code at the failing input): on a `FloaterThread` whose alarm is
active, the second of two consecutive `GetAlarm()` calls still yields
`is_active = true`, because `FloaterThread::GetAlarm` does not clear the flag;
for every detector of any of the other six classes, in every alarm state, the
second call yields `is_active = false`. -/
theorem c9_floater_second_read_still_active :
    active_floater.alarm.is_active = true ∧
    (active_floater.GetAlarm.2.GetAlarm.1).is_active = true ∧
    ∀ d : RiverThread, d.kind = DetectorKind.FloaterThread ∨
      (d.GetAlarm.2.GetAlarm.1).is_active = false := by
  refine ⟨by decide, by decide, ?_⟩
  intro d
  rcases d with ⟨kind, config, alarm⟩
  cases kind <;> simp [RiverThread.GetAlarm, AnalysisAlarm.new, WaterGaugeThread.GetAlarm,
    WaterColorThread.GetAlarm, InvadeThread.GetAlarm, FishingThread.GetAlarm,
    LitterThread.GetAlarm]

/-- C10 (the code at the failing input): a pipeline whose only detector is a
`FloaterThread` with an active alarm runs two ticks one second apart, with no
`SetAlarm` in between. Both ticks pass the rate limiter, both obtain a slot and
commit a record, so the single activation is in the queue twice, with the same
scene type, area, speed and rectangles; with an `InvadeThread` in its place the
second tick forwards nothing. -/
theorem c10_floater_activation_forwarded_twice :
    (¬ diff_time (Analysis.single active_floater).last_time first_tick.time_now < 1000 ∧
     ¬ diff_time first_tick.time_now second_tick.time_now < 1000) ∧
    (two_ticks (Analysis.single active_floater) first_tick second_tick).2 =
      ([Acquire.slot 0], [Acquire.slot 1]) ∧
    (two_ticks (Analysis.single active_floater) first_tick second_tick).1.send_queue._element_size
      = 2 ∧
    (read_attempts (two_ticks (Analysis.single active_floater) first_tick second_tick).1.send_queue
        [Env.quiet cv_status.timeout, Env.quiet cv_status.timeout]).1.map
        (Option.map fun r =>
          (r.scene_type, r.TotalArea, r.Speed, r.rectangle_array_vect, r.current_time)) =
      [some (some AlgorithmType.FLOATER, 12, 3, [{ x := 1, y := 2, width := 3, height := 4 }],
             "1970-01-01 08:00:01"),
       some (some AlgorithmType.FLOATER, 12, 3, [{ x := 1, y := 2, width := 3, height := 4 }],
             "1970-01-01 08:00:02")] ∧
    (two_ticks (Analysis.single active_invade) first_tick second_tick).2 =
      ([Acquire.slot 0], []) := by
  refine ⟨by decide, by decide, by decide, ?_, by decide⟩
  rfl

/-! ## Properties of the worker lifecycle and of the supervisor -/

theorem mem_sweep_from (flag : Nat → Bool) (x : ManagerAction) :
    ∀ (n i : Nat), x ∈ AnalysisManager.sweep_from flag i n ↔
      ∃ j, i ≤ j ∧ j < i + n ∧ x ∈ AnalysisManager.visit j (flag j) := by
  intro n
  induction n with
  | zero =>
    intro i
    simp only [AnalysisManager.sweep_from, List.not_mem_nil, false_iff]
    rintro ⟨j, h1, h2, _⟩
    omega
  | succ n ih =>
    intro i
    simp only [AnalysisManager.sweep_from, List.mem_append, ih (i + 1)]
    constructor
    · rintro (h | ⟨j, h1, h2, h3⟩)
      · exact ⟨i, le_refl i, by omega, h⟩
      · exact ⟨j, by omega, by omega, h3⟩
    · rintro ⟨j, h1, h2, h3⟩
      rcases Nat.eq_or_lt_of_le h1 with h | h
      · left; rw [h]; exact h3
      · right; exact ⟨j, by omega, by omega, h3⟩

theorem sweep_from_split (flag : Nat → Bool) :
    ∀ (m i n : Nat), AnalysisManager.sweep_from flag i (m + n) =
      AnalysisManager.sweep_from flag i m ++ AnalysisManager.sweep_from flag (i + m) n := by
  intro m
  induction m with
  | zero => intro i n; simp [AnalysisManager.sweep_from]
  | succ m ih =>
    intro i n
    have h : m + 1 + n = (m + n) + 1 := by omega
    rw [h]
    simp only [AnalysisManager.sweep_from, ih (i + 1) n, List.append_assoc]
    have h2 : i + 1 + m = i + (m + 1) := by omega
    rw [h2]

theorem sweep_around (N i : Nat) (flag : Nat → Bool) (hi : i < N) :
    AnalysisManager.sweep N flag =
      AnalysisManager.sweep_from flag 0 i ++
        (AnalysisManager.visit i (flag i) ++ AnalysisManager.sweep_from flag (i + 1) (N - i - 1)) := by
  have h : N = i + ((N - i - 1) + 1) := by omega
  unfold AnalysisManager.sweep
  conv_lhs => rw [h]
  rw [sweep_from_split flag i 0 ((N - i - 1) + 1)]
  simp [AnalysisManager.sweep_from]

theorem waited_append (xs ys : List ManagerAction) :
    waited (xs ++ ys) = waited xs + waited ys := by
  induction xs with
  | nil => simp [waited]
  | cons x xs ih =>
    cases x <;> simp [waited, ih]
    omega

theorem waited_visit (i : Nat) (b : Bool) : waited (AnalysisManager.visit i b) = 5000 := by
  cases b <;> simp [AnalysisManager.visit, waited]

theorem waited_sweep_from (flag : Nat → Bool) :
    ∀ (n i : Nat), waited (AnalysisManager.sweep_from flag i n) = n * 5000 := by
  intro n
  induction n with
  | zero => intro i; simp [AnalysisManager.sweep_from, waited]
  | succ n ih =>
    intro i
    simp only [AnalysisManager.sweep_from, waited_append, waited_visit, ih (i + 1)]
    omega

theorem not_examine_in_visit (i j : Nat) (b : Bool) (hij : j ≠ i) :
    ∀ x ∈ AnalysisManager.visit j b, (!x.is_examine i) = true := by
  intro x hx
  cases b
  · simp only [AnalysisManager.visit, Bool.not_false, if_true, List.mem_append,
      List.mem_singleton, List.mem_cons, List.not_mem_nil, or_false] at hx
    rcases hx with (h | h | h) | h <;> subst h <;> simp [ManagerAction.is_examine, hij]
  · simp only [AnalysisManager.visit, Bool.not_true, Bool.false_eq_true, if_false,
      List.mem_append, List.mem_singleton, List.not_mem_nil, or_false] at hx
    rcases hx with h | h <;> subst h <;> simp [ManagerAction.is_examine, hij]

/-- C11 (the code at the failing input): on a running worker, whose thread
object is present and joinable, `Start()` is not a no-op. It passes the test
`!_thread->joinable()` and runs `delete _thread`, so the existing thread object
is destroyed while joinable, which calls `std::terminate()`. The call returns
at once only when the thread object present is not joinable. -/
theorem c11_start_on_running_worker_deletes_thread :
    running_worker._thread = some { joinable := true } ∧
    (RiverThread.Start running_worker).log =
      running_worker.log ++ [ThreadEvent.deleted true, ThreadEvent.terminate] ∧
    RiverThread.Start running_worker ≠ running_worker ∧
    RiverThread.Start { running_worker with _thread := some { joinable := false } } =
      { running_worker with _thread := some { joinable := false } } := by
  decide

/-- C18: in every watchdog sweep of `AnalysisManager::run`, over any number of
pipelines, a pipeline whose flag `_is_run` reads true when it is examined is
issued neither a `Stop()` nor a `Start()`. -/
theorem c18_no_restart_of_live_pipeline (N : Nat) (flag : Nat → Bool) (i : Nat)
    (hlive : flag i = true) :
    ManagerAction.Stop i ∉ AnalysisManager.sweep N flag ∧
    ManagerAction.Start i ∉ AnalysisManager.sweep N flag := by
  unfold AnalysisManager.sweep
  constructor
  all_goals
    intro hmem
    obtain ⟨j, _, _, hj⟩ := (mem_sweep_from flag _ N 0).mp hmem
    by_cases hji : j = i
    · subst hji
      simp [AnalysisManager.visit, hlive] at hj
    · cases hb : flag j <;> simp [AnalysisManager.visit, hb, hji] at hj
      all_goals exact hji hj.symm

/-- C18, at a sweep over three pipelines of which only the middle one is
dead. -/
theorem c18_no_restart_of_live_pipeline_witness :
    (fun i => decide (i ≠ 1)) 2 = true ∧
    (ManagerAction.Stop 2 ∉ AnalysisManager.sweep 3 (fun i => decide (i ≠ 1)) ∧
     ManagerAction.Start 2 ∉ AnalysisManager.sweep 3 (fun i => decide (i ≠ 1))) :=
  ⟨by decide, c18_no_restart_of_live_pipeline 3 (fun i => decide (i ≠ 1)) 2 (by decide)⟩

theorem not_restart_in_sweep_from (flag : Nat → Bool) (i a n : Nat) (h : i < a ∨ a + n ≤ i) :
    ManagerAction.Stop i ∉ AnalysisManager.sweep_from flag a n ∧
    ManagerAction.Start i ∉ AnalysisManager.sweep_from flag a n := by
  constructor
  all_goals
    intro hmem
    obtain ⟨j, h1, h2, hj⟩ := (mem_sweep_from flag _ n a).mp hmem
    have hji : j ≠ i := by omega
    cases hb : flag j <;> simp [AnalysisManager.visit, hb, hji] at hj
    all_goals exact hji hj.symm

/-- C19: in every watchdog sweep of `AnalysisManager::run` over `N` pipelines,
a pipeline whose flag reads false when it is examined receives, right after
the examination, one `Stop()` and then one `Start()`, and no other `Stop()` or
`Start()` anywhere in the sweep. On a pipeline whose capture thread has ended
(thread object present and joinable) this pair joins and deletes the old
thread and creates exactly one new execution unit. -/
theorem c19_dead_pipeline_restarted_once (N : Nat) (flag : Nat → Bool) (i : Nat)
    (hi : i < N) (hdead : flag i = false) :
    AnalysisManager.sweep N flag =
      AnalysisManager.sweep_from flag 0 i ++
        ([ManagerAction.examine i false, ManagerAction.Stop i, ManagerAction.Start i,
          ManagerAction.WaitFor i 5000] ++
         AnalysisManager.sweep_from flag (i + 1) (N - i - 1)) ∧
    (ManagerAction.Stop i ∉ AnalysisManager.sweep_from flag 0 i ∧
     ManagerAction.Start i ∉ AnalysisManager.sweep_from flag 0 i) ∧
    (ManagerAction.Stop i ∉ AnalysisManager.sweep_from flag (i + 1) (N - i - 1) ∧
     ManagerAction.Start i ∉ AnalysisManager.sweep_from flag (i + 1) (N - i - 1)) ∧
    (∀ w : WorkerThread, w._thread = some { joinable := true } →
      RiverThread.Start (RiverThread.Stop w) =
        { _is_run := false, _thread := some { joinable := true },
          log := w.log ++ [ThreadEvent.joined, ThreadEvent.deleted false, ThreadEvent.spawned] }) := by
  refine ⟨?_, not_restart_in_sweep_from flag i 0 i (by omega),
    not_restart_in_sweep_from flag i (i + 1) (N - i - 1) (by omega), ?_⟩
  · rw [sweep_around N i flag hi, hdead]
    rfl
  · intro w hw
    simp [RiverThread.Start, RiverThread.Stop, hw]

/-- C19, at a sweep over three pipelines of which only the middle one is
dead. -/
theorem c19_dead_pipeline_restarted_once_witness :
    1 < 3 ∧ (fun i => decide (i ≠ 1)) 1 = false ∧
    (AnalysisManager.sweep 3 (fun i => decide (i ≠ 1)) =
      AnalysisManager.sweep_from (fun i => decide (i ≠ 1)) 0 1 ++
        ([ManagerAction.examine 1 false, ManagerAction.Stop 1, ManagerAction.Start 1,
          ManagerAction.WaitFor 1 5000] ++
         AnalysisManager.sweep_from (fun i => decide (i ≠ 1)) (1 + 1) (3 - 1 - 1)) ∧
     (ManagerAction.Stop 1 ∉ AnalysisManager.sweep_from (fun i => decide (i ≠ 1)) 0 1 ∧
      ManagerAction.Start 1 ∉ AnalysisManager.sweep_from (fun i => decide (i ≠ 1)) 0 1) ∧
     (ManagerAction.Stop 1 ∉
        AnalysisManager.sweep_from (fun i => decide (i ≠ 1)) (1 + 1) (3 - 1 - 1) ∧
      ManagerAction.Start 1 ∉
        AnalysisManager.sweep_from (fun i => decide (i ≠ 1)) (1 + 1) (3 - 1 - 1)) ∧
     (∀ w : WorkerThread, w._thread = some { joinable := true } →
       RiverThread.Start (RiverThread.Stop w) =
         { _is_run := false, _thread := some { joinable := true },
           log := w.log ++
             [ThreadEvent.joined, ThreadEvent.deleted false, ThreadEvent.spawned] })) :=
  ⟨by decide, by decide,
   c19_dead_pipeline_restarted_once 3 (fun i => decide (i ≠ 1)) 1 (by decide) (by decide)⟩

theorem wait_between_examinations (N : Nat) (flag next : Nat → Bool) (i : Nat)
    (hi : i < N) :
    waited (between_examinations i (AnalysisManager.sweep N flag)
      (AnalysisManager.sweep N next)) = N * 5000 := by
  have hpre : ∀ (f : Nat → Bool), ∀ x ∈ AnalysisManager.sweep_from f 0 i,
      (!x.is_examine i) = true := by
    intro f x hx
    obtain ⟨j, _, h2, hj⟩ := (mem_sweep_from f x i 0).mp hx
    exact not_examine_in_visit i j (f j) (by omega) x hj
  have hvisit : ∀ (f : Nat → Bool), AnalysisManager.visit i (f i) =
      ManagerAction.examine i (f i) ::
        ((if !f i then [ManagerAction.Stop i, ManagerAction.Start i] else []) ++
          [ManagerAction.WaitFor i (1000 * 5)]) := by
    intro f; simp [AnalysisManager.visit]
  have hrest : ∀ (f : Nat → Bool),
      waited ((if !f i then [ManagerAction.Stop i, ManagerAction.Start i] else []) ++
          [ManagerAction.WaitFor i (1000 * 5)]) = 5000 := by
    intro f; cases f i <;> simp [waited]
  unfold between_examinations
  rw [sweep_around N i flag hi, sweep_around N i next hi,
    List.dropWhile_append_of_pos (hpre flag), List.takeWhile_append_of_pos (hpre next),
    hvisit flag, hvisit next]
  simp only [List.cons_append]
  rw [List.dropWhile_cons_of_neg (by simp [ManagerAction.is_examine]),
    List.takeWhile_cons_of_neg (by simp [ManagerAction.is_examine])]
  simp only [List.tail_cons, List.append_nil, waited_append, hrest, waited_sweep_from]
  have : (N - i - 1) * 5000 + i * 5000 + 5000 = N * 5000 := by
    have h : N = (N - i - 1) + i + 1 := by omega
    conv_rhs => rw [h]
    ring
  omega

/-- C20 (the code at the failing input): with two supervised pipelines, all
alive, the waiting time `AnalysisManager::run` requests between two
consecutive examinations of the same pipeline is 10000 ms, two periods and not
one, because `WaitFor(1000*5)` is called once per pipeline inside the sweep;
with a single pipeline it is 5000 ms. -/
theorem c20_two_pipelines_wait_two_periods :
    waited (between_examinations 0 (AnalysisManager.sweep 2 (fun _ => true))
      (AnalysisManager.sweep 2 (fun _ => true))) = 10000 ∧
    waited (between_examinations 1 (AnalysisManager.sweep 2 (fun _ => true))
      (AnalysisManager.sweep 2 (fun _ => true))) = 10000 ∧
    waited (between_examinations 0 (AnalysisManager.sweep 1 (fun _ => true))
      (AnalysisManager.sweep 1 (fun _ => true))) = 5000 ∧
    (AnalysisManager.run 2 (fun _ _ => true) 2).2 =
      [ManagerAction.Start 0, ManagerAction.Start 1, ManagerAction.sleep 10,
       ManagerAction.examine 0 true, ManagerAction.WaitFor 0 5000,
       ManagerAction.examine 1 true, ManagerAction.WaitFor 1 5000,
       ManagerAction.examine 0 true, ManagerAction.WaitFor 0 5000,
       ManagerAction.examine 1 true, ManagerAction.WaitFor 1 5000] := by
  decide

/-! ## Properties of the capture loop -/

theorem capture_loop_stop (om : Bool) (a : Analysis) (r : Nat) (s : CaptureStep)
    (rest : List CaptureStep) (h1 : s.is_run = false) :
    Analysis.capture_loop om a r (s :: rest) = (a, [], none, false) := by
  simp [Analysis.capture_loop, h1]

theorem capture_loop_break (om : Bool) (a : Analysis) (r : Nat) (s : CaptureStep)
    (rest : List CaptureStep) (h1 : s.is_run = true)
    (h2 : (s.tick.img.isEmpty || !s.opened) = true) (h3 : r > 10) :
    Analysis.capture_loop om a r (s :: rest) = (a, [RunEvent.cap_read], none, true) := by
  simp only [Analysis.capture_loop, h1, h2, h3]
  simp

theorem capture_loop_retry (om : Bool) (a : Analysis) (r : Nat) (s : CaptureStep)
    (rest : List CaptureStep) (h1 : s.is_run = true)
    (h2 : (s.tick.img.isEmpty || !s.opened) = true) (h3 : ¬ r > 10) :
    Analysis.capture_loop om a r (s :: rest) =
      ((Analysis.capture_loop om a (r + 1) rest).1,
       (if !s.opened then [RunEvent.cap_read, RunEvent.cap_release, RunEvent.cap_open]
        else [RunEvent.cap_read]) ++ (Analysis.capture_loop om a (r + 1) rest).2.1,
       (Analysis.capture_loop om a (r + 1) rest).2.2) := by
  simp only [Analysis.capture_loop, h1, h2, h3]
  simp

theorem capture_loop_frame (om : Bool) (a : Analysis) (r : Nat) (s : CaptureStep)
    (rest : List CaptureStep) (h1 : s.is_run = true)
    (h2 : (s.tick.img.isEmpty || !s.opened) = false) :
    Analysis.capture_loop om a r (s :: rest) =
      ((Analysis.capture_loop om (a.DrawInfo s.tick).1 0 rest).1,
       ([RunEvent.cap_read, RunEvent.SetOriginImg s.tick.img] ++
          (if om then [RunEvent.SetForegroundImg] else []) ++
          [RunEvent.DrawInfo, RunEvent.usleep]) ++
         (Analysis.capture_loop om (a.DrawInfo s.tick).1 0 rest).2.1,
       (Analysis.capture_loop om (a.DrawInfo s.tick).1 0 rest).2.2) := by
  simp only [Analysis.capture_loop, h1, h2]
  simp

theorem capture_loop_ended_append (om : Bool) :
    ∀ (xs : List CaptureStep) (a : Analysis) (r : Nat) (post : List CaptureStep),
      (Analysis.capture_loop om a r xs).2.2.1 = none →
      Analysis.capture_loop om a r (xs ++ post) = Analysis.capture_loop om a r xs := by
  intro xs
  induction xs with
  | nil => intro a r post h; simp [Analysis.capture_loop] at h
  | cons s rest ih =>
    intro a r post h
    rw [List.cons_append]
    cases h1 : s.is_run
    · rw [capture_loop_stop om a r s _ h1, capture_loop_stop om a r s _ h1]
    · cases h2 : (s.tick.img.isEmpty || !s.opened)
      · rw [capture_loop_frame om a r s _ h1 h2] at h ⊢
        rw [capture_loop_frame om a r s rest h1 h2, ih _ 0 post h]
      · by_cases h3 : r > 10
        · rw [capture_loop_break om a r s _ h1 h2 h3, capture_loop_break om a r s _ h1 h2 h3]
        · rw [capture_loop_retry om a r s _ h1 h2 h3] at h ⊢
          rw [capture_loop_retry om a r s rest h1 h2 h3, ih a (r + 1) post h]

theorem capture_loop_empty_reads (om : Bool) :
    ∀ (es : List CaptureStep) (a : Analysis) (r : Nat), es ≠ [] → 12 ≤ r + es.length →
      (∀ s ∈ es, (s.tick.img.isEmpty || !s.opened) = true) →
      (Analysis.capture_loop om a r es).2.2.1 = none := by
  intro es
  induction es with
  | nil => intro a r h; exact absurd rfl h
  | cons s rest ih =>
    intro a r _ hlen hall
    have h2 := hall s (List.mem_cons_self s rest)
    cases h1 : s.is_run
    · rw [capture_loop_stop om a r s _ h1]
    · by_cases h3 : r > 10
      · rw [capture_loop_break om a r s _ h1 h2 h3]
      · rw [capture_loop_retry om a r s _ h1 h2 h3]
        simp only [List.length_cons] at hlen
        have hne : rest ≠ [] := by
          intro h; subst h; simp at hlen; omega
        exact ih a (r + 1) hne (by omega) (fun x hx => hall x (List.mem_cons_of_mem s hx))

theorem capture_loop_no_call_stop (om : Bool) :
    ∀ (xs : List CaptureStep) (a : Analysis) (r : Nat),
      ∀ x ∈ (Analysis.capture_loop om a r xs).2.1, x ≠ RunEvent.CallStop := by
  intro xs
  induction xs with
  | nil => intro a r x hx; simp [Analysis.capture_loop] at hx
  | cons s rest ih =>
    intro a r x hx
    cases h1 : s.is_run
    · rw [capture_loop_stop om a r s _ h1] at hx
      simp at hx
    · cases h2 : (s.tick.img.isEmpty || !s.opened)
      · rw [capture_loop_frame om a r s _ h1 h2] at hx
        simp only [List.mem_append] at hx
        rcases hx with hx | hx
        · intro hc; subst hc
          cases om <;> simp at hx
        · exact ih _ 0 x hx
      · by_cases h3 : r > 10
        · rw [capture_loop_break om a r s _ h1 h2 h3] at hx
          intro hc; subst hc
          simp at hx
        · rw [capture_loop_retry om a r s _ h1 h2 h3] at hx
          simp only [List.mem_append] at hx
          rcases hx with hx | hx
          · intro hc; subst hc
            split at hx <;> simp at hx
          · exact ih a (r + 1) x hx

theorem capture_loop_after (om : Bool) (ys : List CaptureStep)
    (hys : ∀ (a : Analysis) (r : Nat), (Analysis.capture_loop om a r ys).2.2.1 = none) :
    ∀ (pre : List CaptureStep) (a : Analysis) (r : Nat),
      (Analysis.capture_loop om a r (pre ++ ys)).2.2.1 = none := by
  intro pre
  induction pre with
  | nil => intro a r; exact hys a r
  | cons s rest ih =>
    intro a r
    rw [List.cons_append]
    cases h1 : s.is_run
    · rw [capture_loop_stop om a r s _ h1]
    · cases h2 : (s.tick.img.isEmpty || !s.opened)
      · rw [capture_loop_frame om a r s _ h1 h2]
        exact ih _ 0
      · by_cases h3 : r > 10
        · rw [capture_loop_break om a r s _ h1 h2 h3]
        · rw [capture_loop_retry om a r s _ h1 h2 h3]
          exact ih a (r + 1)

/-- C12 (as stated, refuted): after 11 consecutive empty reads the pipeline is
still in its capture loop (`Run` has not returned, `_is_run` is true,
`StopAnalysis` has not been called), and a good frame arriving as the 12th
read keeps it running, with `retrytime` back at 0. -/
theorem c12_eleven_empty_reads_keep_running :
    (∀ joined : Bool,
     (Analysis.Run (Analysis.single active_invade) false true { tv_sec := 0, tv_usec := 0 }
        (List.replicate 11 empty_step) joined).returned = false ∧
     (Analysis.Run (Analysis.single active_invade) false true { tv_sec := 0, tv_usec := 0 }
        (List.replicate 11 empty_step) joined)._is_run = true ∧
     RunEvent.StopAnalysis ∉
       (Analysis.Run (Analysis.single active_invade) false true { tv_sec := 0, tv_usec := 0 }
        (List.replicate 11 empty_step) joined).events ∧
     (Analysis.Run (Analysis.single active_invade) false true { tv_sec := 0, tv_usec := 0 }
        (List.replicate 11 empty_step ++ [good_step]) joined).returned = false ∧
     RunEvent.StopAnalysis ∉
       (Analysis.Run (Analysis.single active_invade) false true { tv_sec := 0, tv_usec := 0 }
        (List.replicate 11 empty_step ++ [good_step]) joined).events) ∧
    (Analysis.capture_loop false (Analysis.single active_invade) 0
        (List.replicate 11 empty_step ++ [good_step])).2.2.1 = some 0 := by
  decide

/-- C12 (amended): for a pipeline that has entered its capture loop and every
sequence of frame reads that contains 12 consecutive empty reads, the pipeline
has left Running by the end of those 12 reads: it has called `StopAnalysis`,
and whatever would be read after the 12th empty read plays no part. When the
joins inside `StopAnalysis` return, `Run` has returned, cleared `_is_run` and
signalled termination with `CallStop`; when one of them does not return, `Run`
has not returned and `CallStop` has not been called. -/
theorem c12_twelve_empty_reads_end_the_loop (a : Analysis) (open_modeling first_open : Bool)
    (start : timeval) (pre empties post : List CaptureStep) (joined : Bool)
    (halg : a.algorithms.isEmpty = false) (hlen : empties.length = 12)
    (hempty : ∀ s ∈ empties, (s.tick.img.isEmpty || !s.opened) = true) :
    RunEvent.StopAnalysis ∈
      (Analysis.Run a open_modeling first_open start (pre ++ empties ++ post) joined).events ∧
    Analysis.Run a open_modeling first_open start (pre ++ empties ++ post) joined =
      Analysis.Run a open_modeling first_open start (pre ++ empties) joined ∧
    (joined = true →
      (Analysis.Run a open_modeling first_open start (pre ++ empties ++ post) joined).returned
        = true ∧
      (Analysis.Run a open_modeling first_open start (pre ++ empties ++ post) joined)._is_run
        = false ∧
      RunEvent.CallStop ∈
        (Analysis.Run a open_modeling first_open start (pre ++ empties ++ post) joined).events) ∧
    (joined = false →
      (Analysis.Run a open_modeling first_open start (pre ++ empties ++ post) joined).returned
        = false ∧
      RunEvent.CallStop ∉
        (Analysis.Run a open_modeling first_open start (pre ++ empties ++ post) joined).events ∧
      (Analysis.Run a open_modeling first_open start (pre ++ empties ++ post) joined).events.getLast?
        = some RunEvent.StopAnalysis) := by
  have hne : empties ≠ [] := by
    intro h; subst h; simp at hlen
  have hend : ∀ (a1 : Analysis) (r : Nat),
      (Analysis.capture_loop open_modeling a1 r (pre ++ empties)).2.2.1 = none :=
    fun a1 r => capture_loop_after open_modeling empties
      (fun a2 r2 => capture_loop_empty_reads open_modeling empties a2 r2 hne (by omega) hempty)
      pre a1 r
  have hread : ∀ x ∈ (Analysis.capture_loop open_modeling { a with last_time := start } 0
      (pre ++ empties)).2.1, x ≠ RunEvent.CallStop :=
    capture_loop_no_call_stop open_modeling (pre ++ empties) _ 0
  have hstarted : ∀ (opening : List RunEvent), RunEvent.CallStop ∉ opening →
      Analysis.Run_started a open_modeling opening start (pre ++ empties ++ post) joined =
        Analysis.Run_started a open_modeling opening start (pre ++ empties) joined ∧
      RunEvent.StopAnalysis ∈
        (Analysis.Run_started a open_modeling opening start (pre ++ empties) joined).events ∧
      (joined = true →
        (Analysis.Run_started a open_modeling opening start (pre ++ empties) joined).returned
          = true ∧
        (Analysis.Run_started a open_modeling opening start (pre ++ empties) joined)._is_run
          = false ∧
        RunEvent.CallStop ∈
          (Analysis.Run_started a open_modeling opening start (pre ++ empties) joined).events) ∧
      (joined = false →
        (Analysis.Run_started a open_modeling opening start (pre ++ empties) joined).returned
          = false ∧
        RunEvent.CallStop ∉
          (Analysis.Run_started a open_modeling opening start (pre ++ empties) joined).events ∧
        (Analysis.Run_started a open_modeling opening start
          (pre ++ empties) joined).events.getLast? = some RunEvent.StopAnalysis) := by
    intro opening hop
    have h1 := hend { a with last_time := start } 0
    refine ⟨?_, ?_, ?_, ?_⟩
    · simp only [Analysis.Run_started]
      rw [capture_loop_ended_append open_modeling (pre ++ empties) _ 0 post h1]
    · cases joined <;> simp [Analysis.Run_started, h1]
    · intro hj; subst hj
      simp [Analysis.Run_started, h1]
    · intro hj; subst hj
      refine ⟨by simp [Analysis.Run_started, h1], ?_, ?_⟩
      swap
      · simp only [Analysis.Run_started, h1, Bool.false_eq_true, if_false]
        rw [List.getLast?_concat]
      simp only [Analysis.Run_started, h1]
      simp only [Bool.false_eq_true, if_false, List.mem_append, List.mem_singleton, List.mem_cons,
        not_or]
      exact ⟨⟨⟨hop, by decide⟩, fun h => hread _ h rfl⟩, by decide⟩
  have hrun : ∀ (steps : List CaptureStep),
      Analysis.Run a open_modeling first_open start steps joined =
        Analysis.Run_started a open_modeling
          (if !first_open then [RunEvent.cap_open, RunEvent.cap_open] else [RunEvent.cap_open])
          start steps joined := by
    intro steps
    cases first_open <;> simp [Analysis.Run, halg]
  rw [hrun, hrun]
  obtain ⟨h1, h2, h3, h4⟩ := hstarted
    (if !first_open then [RunEvent.cap_open, RunEvent.cap_open] else [RunEvent.cap_open])
    (by cases first_open <;> decide)
  rw [h1]
  exact ⟨h2, rfl, h3, h4⟩

/-- C12 (amended), at a pipeline that reads a good frame, then 12 empty frames,
then a good frame again, and whose `StopAnalysis` returns. -/
theorem c12_twelve_empty_reads_end_the_loop_witness :
    (Analysis.single active_invade).algorithms.isEmpty = false ∧
    (List.replicate 12 empty_step).length = 12 ∧
    (∀ s ∈ List.replicate 12 empty_step, (s.tick.img.isEmpty || !s.opened) = true) ∧
    (Analysis.Run (Analysis.single active_invade) false true { tv_sec := 0, tv_usec := 0 }
        ([good_step] ++ List.replicate 12 empty_step ++ [good_step]) true).returned = true ∧
    (RunEvent.StopAnalysis ∈
       (Analysis.Run (Analysis.single active_invade) false true { tv_sec := 0, tv_usec := 0 }
        ([good_step] ++ List.replicate 12 empty_step ++ [good_step]) true).events ∧
     Analysis.Run (Analysis.single active_invade) false true { tv_sec := 0, tv_usec := 0 }
        ([good_step] ++ List.replicate 12 empty_step ++ [good_step]) true =
       Analysis.Run (Analysis.single active_invade) false true { tv_sec := 0, tv_usec := 0 }
        ([good_step] ++ List.replicate 12 empty_step) true ∧
     (true = true →
       (Analysis.Run (Analysis.single active_invade) false true { tv_sec := 0, tv_usec := 0 }
          ([good_step] ++ List.replicate 12 empty_step ++ [good_step]) true).returned = true ∧
       (Analysis.Run (Analysis.single active_invade) false true { tv_sec := 0, tv_usec := 0 }
          ([good_step] ++ List.replicate 12 empty_step ++ [good_step]) true)._is_run = false ∧
       RunEvent.CallStop ∈
         (Analysis.Run (Analysis.single active_invade) false true { tv_sec := 0, tv_usec := 0 }
          ([good_step] ++ List.replicate 12 empty_step ++ [good_step]) true).events) ∧
     (true = false →
       (Analysis.Run (Analysis.single active_invade) false true { tv_sec := 0, tv_usec := 0 }
          ([good_step] ++ List.replicate 12 empty_step ++ [good_step]) true).returned = false ∧
       RunEvent.CallStop ∉
         (Analysis.Run (Analysis.single active_invade) false true { tv_sec := 0, tv_usec := 0 }
          ([good_step] ++ List.replicate 12 empty_step ++ [good_step]) true).events ∧
       (Analysis.Run (Analysis.single active_invade) false true { tv_sec := 0, tv_usec := 0 }
          ([good_step] ++ List.replicate 12 empty_step ++ [good_step]) true).events.getLast?
         = some RunEvent.StopAnalysis)) :=
  ⟨by decide, by decide, by decide, by decide,
   c12_twelve_empty_reads_end_the_loop (Analysis.single active_invade) false true
     { tv_sec := 0, tv_usec := 0 } [good_step] (List.replicate 12 empty_step) [good_step] true
     (by decide) (by decide) (by decide)⟩

/-- C13 (the code at the failing input): with a video source that fails to
open on every attempt, `Analysis::Run` makes two `cap.open` attempts and then
calls `StartAnalysis()` all the same, because the test `retrytime > 3` is made
once, with `retrytime` at 0. It then reopens the source on each of 11 passes
of the capture loop, leaves the loop on the 12th and calls `StopAnalysis()`;
only when that has returned does it end with `_is_run = false`, and while a
join in it blocks it does not return. Whatever the passes, a pipeline with at
least one algorithm whose source does not open has `StartAnalysis` among its
calls. -/
theorem c13_start_analysis_without_open_source :
    (∀ joined : Bool,
      (Analysis.Run (Analysis.single active_invade) false false { tv_sec := 0, tv_usec := 0 }
          (List.replicate 12 closed_step) joined).events.take 3 =
        [RunEvent.cap_open, RunEvent.cap_open, RunEvent.StartAnalysis] ∧
      (Analysis.Run (Analysis.single active_invade) false false { tv_sec := 0, tv_usec := 0 }
          (List.replicate 12 closed_step) joined).events.count RunEvent.cap_open = 13 ∧
      RunEvent.StopAnalysis ∈
        (Analysis.Run (Analysis.single active_invade) false false { tv_sec := 0, tv_usec := 0 }
          (List.replicate 12 closed_step) joined).events) ∧
    (Analysis.Run (Analysis.single active_invade) false false { tv_sec := 0, tv_usec := 0 }
        (List.replicate 12 closed_step) true).returned = true ∧
    (Analysis.Run (Analysis.single active_invade) false false { tv_sec := 0, tv_usec := 0 }
        (List.replicate 12 closed_step) true)._is_run = false ∧
    (Analysis.Run (Analysis.single active_invade) false false { tv_sec := 0, tv_usec := 0 }
        (List.replicate 12 closed_step) false).returned = false ∧
    ∀ (a : Analysis) (open_modeling : Bool) (start : timeval) (steps : List CaptureStep)
      (joined : Bool),
      a.algorithms.isEmpty = true ∨
      RunEvent.StartAnalysis ∈ (Analysis.Run a open_modeling false start steps joined).events := by
  refine ⟨by decide, by decide, by decide, by decide, ?_⟩
  intro a om start steps joined
  cases halg : a.algorithms.isEmpty
  · right
    have hrun : Analysis.Run a om false start steps joined =
        Analysis.Run_started a om [RunEvent.cap_open, RunEvent.cap_open] start steps joined := by
      simp [Analysis.Run, halg]
    rw [hrun]
    simp only [Analysis.Run_started]
    split
    · simp
    · cases joined <;> simp
  · left; rfl

/-! ## Properties of the rate limiter and of a forwarding tick -/

theorem tdiv_thousand_near (x : Int) :
    x - 999 ≤ Int.tdiv x 1000 * 1000 ∧ Int.tdiv x 1000 * 1000 ≤ x + 999 := by
  rcases le_or_lt 0 x with h | h
  · rw [Int.tdiv_eq_ediv h (by norm_num)]
    omega
  · have h1 : x = -(-x) := by ring
    rw [h1, Int.neg_tdiv, Int.tdiv_eq_ediv (by omega) (by norm_num)]
    omega

theorem drawinfo_attempts_pass (a : Analysis) (tick : Tick) (h : (a.DrawInfo tick).2 ≠ []) :
    ¬ diff_time a.last_time tick.time_now < 1000 := by
  intro hlt
  apply h
  simp only [Analysis.DrawInfo]
  split_ifs <;> rfl

/-- C14 (as stated, refuted): with the last forward at 0 s 999 us and the
clock at 1 s 0 us, 999001 microseconds have elapsed, less than a second, yet
the computed difference is 1000 ms and `Analysis::DrawInfo` forwards the
alarm of the tick into the queue. -/
theorem c14_forward_after_999001_usec :
    elapsed_usec late_in_the_millisecond.last_time first_tick.time_now = 999001 ∧
    diff_time late_in_the_millisecond.last_time first_tick.time_now = 1000 ∧
    (late_in_the_millisecond.DrawInfo first_tick).2 = [Acquire.slot 0] ∧
    (late_in_the_millisecond.DrawInfo first_tick).1.send_queue._element_size = 1 := by
  decide

/-- C14 (amended): for all pairs of clock readings `last_time` and `time_now`
(seconds and microseconds, `0 <= usec < 1000000`, `time_now` not earlier than
`last_time`), `Analysis::DrawInfo` makes a write attempt for an alarm of the
tick only if at least 999001 microseconds of real time have elapsed between
`last_time` and `time_now`: the limiter compares a difference in milliseconds
in which the microsecond part is truncated towards zero. -/
theorem c14_forward_needs_999001_usec (a : Analysis) (tick : Tick)
    (_hlast : 0 ≤ a.last_time.tv_usec ∧ a.last_time.tv_usec < 1000000)
    (_hnow : 0 ≤ tick.time_now.tv_usec ∧ tick.time_now.tv_usec < 1000000)
    (horder : 0 ≤ elapsed_usec a.last_time tick.time_now)
    (hforward : (a.DrawInfo tick).2 ≠ []) :
    999001 ≤ elapsed_usec a.last_time tick.time_now := by
  have hpass := drawinfo_attempts_pass a tick hforward
  unfold diff_time at hpass
  unfold elapsed_usec at horder ⊢
  obtain ⟨h1, h2⟩ := tdiv_thousand_near (tick.time_now.tv_usec - a.last_time.tv_usec)
  generalize Int.tdiv (tick.time_now.tv_usec - a.last_time.tv_usec) 1000 = t at hpass h1 h2
  omega

/-- C14 (amended), at a tick one second after a last forward at 0 s 999 us. -/
theorem c14_forward_needs_999001_usec_witness :
    (0 ≤ late_in_the_millisecond.last_time.tv_usec ∧
      late_in_the_millisecond.last_time.tv_usec < 1000000) ∧
    (0 ≤ first_tick.time_now.tv_usec ∧ first_tick.time_now.tv_usec < 1000000) ∧
    0 ≤ elapsed_usec late_in_the_millisecond.last_time first_tick.time_now ∧
    (late_in_the_millisecond.DrawInfo first_tick).2 ≠ [] ∧
    999001 ≤ elapsed_usec late_in_the_millisecond.last_time first_tick.time_now :=
  ⟨by decide, by decide, by decide, by decide,
   c14_forward_needs_999001_usec late_in_the_millisecond first_tick (by decide) (by decide)
     (by decide) (by decide)⟩

/-- A rejected tick changes nothing but the detectors: when a tick has active
alarms but the rate limiter rejects it (computed difference below 1000 ms),
`Analysis::DrawInfo` makes no write attempt, leaves the alarm queue (head,
tail, occupancy, slots) and `last_time` as they were, and the pipeline
afterwards is the pipeline before with every detector as its `GetAlarm` left
it. -/
theorem rejected_tick_changes_nothing (a : Analysis) (tick : Tick)
    (hactive : (collect_alarms a.algorithms).1 ≠ [])
    (hreject : diff_time a.last_time tick.time_now < 1000) :
    (a.DrawInfo tick).2 = [] ∧
    (a.DrawInfo tick).1.send_queue = a.send_queue ∧
    (a.DrawInfo tick).1.last_time = a.last_time ∧
    (a.DrawInfo tick).1 = { a with algorithms := (collect_alarms a.algorithms).2 } := by
  have hne : (collect_alarms a.algorithms).1.isEmpty = false := by
    cases h : (collect_alarms a.algorithms).1 with
    | nil => exact absurd h hactive
    | cons _ _ => rfl
  simp [Analysis.DrawInfo, hne, hreject]

/-- A rejected tick at a pipeline with an active intrusion alarm, half a second
after its last forward. -/
theorem rejected_tick_changes_nothing_witness :
    (collect_alarms (Analysis.single active_invade).algorithms).1 ≠ [] ∧
    diff_time (Analysis.single active_invade).last_time half_second_tick.time_now < 1000 ∧
    (((Analysis.single active_invade).DrawInfo half_second_tick).2 = [] ∧
     ((Analysis.single active_invade).DrawInfo half_second_tick).1.send_queue =
       (Analysis.single active_invade).send_queue ∧
     ((Analysis.single active_invade).DrawInfo half_second_tick).1.last_time =
       (Analysis.single active_invade).last_time ∧
     ((Analysis.single active_invade).DrawInfo half_second_tick).1 =
       { Analysis.single active_invade with
         algorithms := (collect_alarms (Analysis.single active_invade).algorithms).2 }) :=
  ⟨by decide, by decide,
   rejected_tick_changes_nothing (Analysis.single active_invade) half_second_tick
     (by decide) (by decide)⟩

/-- C15 (the code at the failing input): a pipeline whose only detector is a
`FloaterThread` with an active alarm has a tick half a second after its last
forward, which the rate limiter rejects, and a tick at one second, with no
`SetAlarm` in between. The rejected tick makes no write attempt and leaves the
queue and `last_time` as they were, but its alarm is kept: the later tick
forwards it, with its area, speed and rectangle, because
`FloaterThread::GetAlarm` does not clear the flag. With an `InvadeThread` in
its place the later tick forwards nothing, and for every detector of another
class than `FloaterThread`, in every state, nothing is left to collect after
its `GetAlarm`. -/
theorem c15_rejected_floater_alarm_forwarded_later :
    ((collect_alarms (Analysis.single active_floater).algorithms).1 ≠ [] ∧
     diff_time (Analysis.single active_floater).last_time half_second_tick.time_now < 1000) ∧
    (((Analysis.single active_floater).DrawInfo half_second_tick).2 = [] ∧
     ((Analysis.single active_floater).DrawInfo half_second_tick).1.send_queue =
       (Analysis.single active_floater).send_queue ∧
     ((Analysis.single active_floater).DrawInfo half_second_tick).1.last_time =
       (Analysis.single active_floater).last_time) ∧
    (two_ticks (Analysis.single active_floater) half_second_tick first_tick).2 =
      ([], [Acquire.slot 0]) ∧
    (read_attempts (two_ticks (Analysis.single active_floater) half_second_tick first_tick).1.send_queue
        [Env.quiet cv_status.timeout]).1.map
        (Option.map fun r =>
          (r.scene_type, r.TotalArea, r.Speed, r.rectangle_array_vect, r.current_time)) =
      [some (some AlgorithmType.FLOATER, 12, 3, [{ x := 1, y := 2, width := 3, height := 4 }],
             "1970-01-01 08:00:01")] ∧
    (two_ticks (Analysis.single active_invade) half_second_tick first_tick).2 = ([], []) ∧
    ∀ d : RiverThread, d.kind = DetectorKind.FloaterThread ∨
      (collect_alarms [d.GetAlarm.2]).1 = [] := by
  refine ⟨by decide, by decide, by decide, ?_, by decide, ?_⟩
  · rfl
  · intro d
    rcases d with ⟨kind, ⟨type, roi⟩, alarm⟩
    cases kind <;> cases type <;>
      simp [collect_alarms, RiverThread.GetAlarm, AnalysisAlarm.new, WaterGaugeThread.GetAlarm,
        WaterColorThread.GetAlarm, InvadeThread.GetAlarm, FishingThread.GetAlarm,
        LitterThread.GetAlarm]

theorem fill_alarm_fresh (video_id currentTime : String) (img : Mat) (info : AnalysisAlarm)
    (d : AlarmData) :
    fill_alarm video_id currentTime img info d =
      fill_alarm video_id currentTime img info AlarmData.new := by
  unfold fill_alarm AlarmData.clear
  cases info.scene_type <;> rfl

theorem iterations_occupancy :
    ∀ (its : List (cv_status × SendOutcome)) (q : AlarmMsgQueue),
      (HttpClient.iterations q its).2._element_size ≤ q._element_size ∧
      (HttpClient.iterations q its).2._size = q._size := by
  intro its
  induction its with
  | nil => intro q; simp [HttpClient.iterations]
  | cons it rest ih =>
    intro q
    obtain ⟨st, outcome⟩ := it
    have hstep : (HttpClient.iteration q (Env.quiet st) outcome).2._element_size ≤
          q._element_size ∧
        (HttpClient.iteration q (Env.quiet st) outcome).2._size = q._size := by
      simp only [HttpClient.iteration, Env.quiet, get_tail_to_read_quiet]
      split_ifs <;> simp [tail_next]
    obtain ⟨h1, h2⟩ := ih (HttpClient.iteration q (Env.quiet st) outcome).2
    simp only [HttpClient.iterations]
    exact ⟨le_trans h1 hstep.1, h2.trans hstep.2⟩

/-- C17: for every record the dispatcher obtains from `get_tail_to_read`
(non-`NULL`), the iteration of `HttpClient::Run` calls `tail_next` exactly
once, before the send and so whatever its outcome (reply, connection error,
closed connection, timer): the queue after the iteration is `tail_next` of the
queue at the acquire for every outcome, the occupancy is down by exactly one
and within `C - 1` if it was before. Over any run of iterations, also one in
which every send fails, the occupancy never rises. -/
theorem c17_record_retired_once (q : AlarmMsgQueue) (env : Env) (outcome : SendOutcome)
    (i : Int) (q1 : AlarmMsgQueue)
    (hget : get_tail_to_read q (env q) = (Acquire.slot i, q1)) :
    (HttpClient.iteration q env outcome).1.count DispatchAction.tail_next = 1 ∧
    (∀ other : SendOutcome,
      (HttpClient.iteration q env other).2 = tail_next q1 ∧
      (HttpClient.iteration q env other).1 =
        [DispatchAction.tail_next, DispatchAction.SendReq (slot_at q1 i) other]) ∧
    (HttpClient.iteration q env outcome).2._element_size = q1._element_size - 1 ∧
    (q1._element_size ≤ q1._size - 1 →
      (HttpClient.iteration q env outcome).2._element_size ≤
        (HttpClient.iteration q env outcome).2._size - 1) ∧
    (∀ (its : List (cv_status × SendOutcome)) (q0 : AlarmMsgQueue),
      (HttpClient.iterations q0 its).2._element_size ≤ q0._element_size ∧
      (HttpClient.iterations q0 its).2._size = q0._size) := by
  have hit : ∀ other : SendOutcome, HttpClient.iteration q env other =
      ([DispatchAction.tail_next, DispatchAction.SendReq (slot_at q1 i) other],
        tail_next q1) := by
    intro other
    simp [HttpClient.iteration, hget]
  refine ⟨?_, ?_, ?_, ?_, iterations_occupancy⟩
  · rw [hit]
    simp [List.count_cons]
  · intro other
    rw [hit]
    exact ⟨rfl, rfl⟩
  · rw [hit]
    simp [tail_next]
  · intro h
    rw [hit]
    simp only [tail_next]
    omega

/-- C17, at a full queue of size 2 whose record is sent into a timer
expiry. -/
theorem c17_record_retired_once_witness :
    get_tail_to_read full_queue (Env.quiet cv_status.timeout full_queue) =
      (Acquire.slot 0, full_queue) ∧
    ((HttpClient.iteration full_queue (Env.quiet cv_status.timeout) SendOutcome.timer).1.count
        DispatchAction.tail_next = 1 ∧
     (∀ other : SendOutcome,
       (HttpClient.iteration full_queue (Env.quiet cv_status.timeout) other).2 =
         tail_next full_queue ∧
       (HttpClient.iteration full_queue (Env.quiet cv_status.timeout) other).1 =
         [DispatchAction.tail_next, DispatchAction.SendReq (slot_at full_queue 0) other]) ∧
     (HttpClient.iteration full_queue (Env.quiet cv_status.timeout)
        SendOutcome.timer).2._element_size = full_queue._element_size - 1 ∧
     (full_queue._element_size ≤ full_queue._size - 1 →
       (HttpClient.iteration full_queue (Env.quiet cv_status.timeout)
          SendOutcome.timer).2._element_size ≤
         (HttpClient.iteration full_queue (Env.quiet cv_status.timeout)
            SendOutcome.timer).2._size - 1) ∧
     (∀ (its : List (cv_status × SendOutcome)) (q0 : AlarmMsgQueue),
       (HttpClient.iterations q0 its).2._element_size ≤ q0._element_size ∧
       (HttpClient.iterations q0 its).2._size = q0._size)) :=
  ⟨by decide,
   c17_record_retired_once full_queue (Env.quiet cv_status.timeout) SendOutcome.timer 0
     full_queue (by decide)⟩

/-! ## Properties of the start-up: supervisor and detector loading -/

theorem count_start_range (i : Nat) :
    ∀ (N : Nat), ((List.range N).map ManagerAction.Start).count (ManagerAction.Start i) =
      if i < N then 1 else 0 := by
  intro N
  induction N with
  | zero => simp
  | succ N ih =>
    rw [List.range_succ, List.map_append, List.count_append, ih]
    by_cases h1 : i < N
    · have h2 : N ≠ i := by omega
      simp [h1, h2, List.count_cons, Nat.lt_succ_of_lt h1]
    · by_cases h2 : N = i
      · subst h2; simp
      · have h3 : ¬ i < N + 1 := by omega
        simp [h1, h2, h3, List.count_cons]

/-- C21: `AnalysisManager::run` returns -1 if and only if the list of pipeline
instances is empty, and then it has done nothing; with a non-empty list it does
not return, and what it does before the `sleep(10)` that precedes the watchdog
loop is to call `Start()` on the pipelines in order, each exactly once. -/
theorem c21_run_fails_only_without_pipelines (N : Nat) (flag : Nat → Nat → Bool) (k : Nat) :
    ((AnalysisManager.run N flag k).1 = some (-1) ↔ N = 0) ∧
    ((AnalysisManager.run N flag k).1 = none ↔ N ≠ 0) ∧
    (N ≠ 0 ∨ (AnalysisManager.run N flag k).2 = []) ∧
    (N = 0 ∨ (AnalysisManager.run N flag k).2 =
      (List.range N).map ManagerAction.Start ++
        (ManagerAction.sleep 10 :: AnalysisManager.sweeps N flag 0 k)) ∧
    (∀ i, ((List.range N).map ManagerAction.Start).count (ManagerAction.Start i) =
      if i < N then 1 else 0) := by
  refine ⟨?_, ?_, ?_, ?_, fun i => count_start_range i N⟩
  all_goals
    by_cases h : N = 0
    · subst h; simp [AnalysisManager.run]
    · simp [AnalysisManager.run, h]

theorem load_algorithms_filterMap :
    ∀ (cs : List AlgorithmConfig),
      Analysis.load_algorithms cs = cs.filterMap Analysis.GetAlgorithm := by
  intro cs
  induction cs with
  | nil => rfl
  | cons c rest ih =>
    simp only [Analysis.load_algorithms, List.filterMap_cons, ih]
    cases Analysis.GetAlgorithm c <;> rfl

/-- C22: when `Analysis::LoadConfig` succeeds, which it does whenever the file
parses and the font loads, whatever the configured algorithms, the detector
list consists, in configuration order, of the detectors `GetAlgorithm` returns
for the configured algorithms. `GetAlgorithm` returns none exactly for a type
without a detector (`SWIMING`) and for an `InvadeThread` without regions of
interest, whose `LoadConfig` returns -1; a detector it returns carries the
configuration and is what `LoadConfig` returning 0 left. A rejected entry
removes nothing else: the list is the one for the entries before it followed by
the one for the entries after it. -/
theorem c22_detector_list_after_load (config : AnalysisConfig) :
    (Analysis.LoadConfig (some (some config)) true).1 = 0 ∧
    (Analysis.LoadConfig (some (some config)) true).2.map (fun a => a.algorithms) =
      some (config.algorithms.filterMap Analysis.GetAlgorithm) ∧
    (∀ c : AlgorithmConfig, Analysis.GetAlgorithm c = none ↔
      (c.algorithm_type = AlgorithmType.SWIMING ∨
       (c.algorithm_type = AlgorithmType.INVADE ∧ c.roi_rects = []))) ∧
    (∀ (c : AlgorithmConfig) (d : RiverThread), Analysis.GetAlgorithm c = some d →
      d.config = c ∧ (RiverThread.new d.kind).LoadConfig c = (0, d)) ∧
    (∀ (c : AlgorithmConfig), c.algorithm_type = AlgorithmType.INVADE → c.roi_rects = [] →
      ((RiverThread.new DetectorKind.InvadeThread).LoadConfig c).1 = -1) ∧
    (∀ (before after : List AlgorithmConfig) (c : AlgorithmConfig),
      Analysis.GetAlgorithm c = none →
      Analysis.load_algorithms (before ++ c :: after) =
        Analysis.load_algorithms before ++ Analysis.load_algorithms after) := by
  refine ⟨rfl, ?_, ?_, ?_, ?_, ?_⟩
  · simp [Analysis.LoadConfig, load_algorithms_filterMap]
  · intro c
    rcases c with ⟨type, roi⟩
    cases type <;> cases roi <;>
      simp [Analysis.GetAlgorithm, RiverThread.LoadConfig, RiverThread.new,
        InvadeThread.LoadConfig]
  · intro c d h
    rcases c with ⟨type, roi⟩
    cases type <;> cases roi <;>
      simp [Analysis.GetAlgorithm, RiverThread.LoadConfig, RiverThread.new,
        InvadeThread.LoadConfig] at h <;>
      subst h <;>
      simp [RiverThread.LoadConfig, RiverThread.new, InvadeThread.LoadConfig]
  · intro c _ hroi
    simp [RiverThread.LoadConfig, RiverThread.new, InvadeThread.LoadConfig, hroi]
  · intro before after c hc
    simp [load_algorithms_filterMap, List.filterMap_append, hc]

/-! ## Properties of the shared frames -/

theorem frame_kept_by_other_set (h : FrameHub) (kind : FrameKind) (op : FrameSet)
    (hop : op.kind ≠ kind) : (h.set op).get kind = h.get kind := by
  rcases op with ⟨k, f⟩
  cases k <;> cases kind <;> first | rfl | exact absurd rfl hop

theorem frame_kept_by_other_sets (kind : FrameKind) :
    ∀ (later : List FrameSet) (h : FrameHub), (∀ op ∈ later, op.kind ≠ kind) →
      (h.run later).get kind = h.get kind := by
  intro later
  induction later with
  | nil => intro h _; rfl
  | cons op rest ih =>
    intro h hall
    simp only [FrameHub.run]
    rw [ih (h.set op) (fun x hx => hall x (List.mem_cons_of_mem op hx)),
      frame_kept_by_other_set h kind op (hall op (List.mem_cons_self op rest))]

/-- C23: for each frame kind and every frame `f`, a `Get...Img()` issued after
`Set...Img(f)`, with any `Set` calls on the other two kinds in between and no
later `Set` of the same kind, returns `f`, whatever the shared frames held
before. -/
theorem c23_get_returns_last_set (h : FrameHub) (kind : FrameKind) (f : Mat)
    (later : List FrameSet) (hother : ∀ op ∈ later, op.kind ≠ kind) :
    ((h.set { kind := kind, f := f }).run later).get kind = f := by
  rw [frame_kept_by_other_sets kind later _ hother]
  cases kind <;> rfl

/-- C23, at a segmentation frame followed by a new raw frame and a new
foreground frame. -/
theorem c23_get_returns_last_set_witness :
    (∀ op ∈ [({ kind := FrameKind.Origin, f := [4, 5] } : FrameSet),
             { kind := FrameKind.Foreground, f := [6] }], op.kind ≠ FrameKind.Segment) ∧
    ((({ origin_img := [1], segment_img := [2], foreground_img := [] } : FrameHub).set
        { kind := FrameKind.Segment, f := [7, 8, 9] }).run
      [{ kind := FrameKind.Origin, f := [4, 5] },
       { kind := FrameKind.Foreground, f := [6] }]).get FrameKind.Segment = [7, 8, 9] :=
  ⟨by decide,
   c23_get_returns_last_set { origin_img := [1], segment_img := [2], foreground_img := [] }
     FrameKind.Segment [7, 8, 9]
     [{ kind := FrameKind.Origin, f := [4, 5] }, { kind := FrameKind.Foreground, f := [6] }]
     (by decide)⟩

/-! ## Properties of the detector geometry -/

/-- C28 (the code at the failing input): for three white pixels on a falling
line the least-squares numerator is -6, but `LineFitting` computes it in
`size_t` and divides 18446744073709551610 by 6; for three white pixels in one
column it performs the division with the denominator 0. -/
theorem c28_line_fit_numerator_wraps :
    least_squares_numerator falling_points = -6 ∧
    least_squares_denominator falling_points = 6 ∧
    FishingThread.LineFitting falling_points = some (18446744073709551610, 6) ∧
    least_squares_denominator column_points = 0 ∧
    FishingThread.LineFitting column_points = some (0, 0) := by
  decide

/-- C29 (the code at the failing input): for two squares that share a border,
`crossAlgorithm2` answers true in one order of its arguments and false in the
other, so it is not symmetric; the first answer is wrong for rectangles as
pixel sets, which do not intersect, and the second is wrong for rectangles as
closed regions, which do. -/
theorem c29_touching_squares_not_symmetric :
    crossAlgorithm2 left_square right_square = true ∧
    crossAlgorithm2 right_square left_square = false ∧
    ¬ left_square.intersects right_square ∧
    right_square.intersects_closed left_square ∧
    (0 ≤ left_square.width ∧ 0 ≤ left_square.height ∧
     0 ≤ right_square.width ∧ 0 ≤ right_square.height) := by
  decide

/-! ## Properties of the ring indices and of the slot contents -/

theorem pointer_of_quiet_write (q : AlarmMsgQueue) (st : cv_status) (i : Int)
    (h : (get_head_to_write q (Waits.quiet st q)).1 = Acquire.slot i) : i = q._head := by
  rw [get_head_to_write_quiet] at h
  split_ifs at h <;> simp at h <;> exact h.symm

theorem pointer_of_quiet_read (q : AlarmMsgQueue) (st : cv_status) (i : Int)
    (h : (get_tail_to_read q (Waits.quiet st q)).1 = Acquire.slot i) : i = q._tail := by
  rw [get_tail_to_read_quiet] at h
  split_ifs at h <;> simp at h <;> exact h.symm

/-- C25: for every queue of size `C >= 2`, in every state reached from
construction by calls that respect the protocol, `0 <= head <= C-2`,
`0 <= tail <= C-2` and `(head - tail) mod (C-1) = occupied mod (C-1)`; the
pointer either acquire hands out in such a state is `_data[head]` or
`_data[tail]`, so the slot at index `C-1` is never handed out. -/
theorem c25_indices_stay_in_ring (C timeout : Int) (hC : 2 ≤ C) (cs : List Call)
    (hcs : Session.respects (Session.init C timeout) cs = true) :
    (0 ≤ (Session.run (Session.init C timeout) cs).q._head ∧
     (Session.run (Session.init C timeout) cs).q._head ≤ C - 2) ∧
    (0 ≤ (Session.run (Session.init C timeout) cs).q._tail ∧
     (Session.run (Session.init C timeout) cs).q._tail ≤ C - 2) ∧
    ((Session.run (Session.init C timeout) cs).q._head -
        (Session.run (Session.init C timeout) cs).q._tail) % (C - 1) =
      (Session.run (Session.init C timeout) cs).q._element_size % (C - 1) ∧
    (∀ (st : cv_status) (i : Int),
      (get_head_to_write (Session.run (Session.init C timeout) cs).q
        (Waits.quiet st (Session.run (Session.init C timeout) cs).q)).1 = Acquire.slot i →
      0 ≤ i ∧ i ≤ C - 2) ∧
    (∀ (st : cv_status) (i : Int),
      (get_tail_to_read (Session.run (Session.init C timeout) cs).q
        (Waits.quiet st (Session.run (Session.init C timeout) cs).q)).1 = Acquire.slot i →
      0 ≤ i ∧ i ≤ C - 2) ∧
    (∀ i, (Session.run (Session.init C timeout) cs).whold = some i → 0 ≤ i ∧ i ≤ C - 2) ∧
    (∀ i, (Session.run (Session.init C timeout) cs).rhold = some i → 0 ≤ i ∧ i ≤ C - 2) := by
  obtain ⟨t, h, k, hsh⟩ := Session.shape_run (C - 1).toNat cs (Session.init C timeout)
    ⟨0, 0, 0, Session.shape_init C timeout hC⟩ hcs
  generalize Session.run (Session.init C timeout) cs = s at hsh
  have hn : ((C - 1).toNat : Int) = C - 1 := by omega
  have hhd := hsh.head_eq
  have htl := hsh.tail_eq
  have hoc := hsh.occ_eq
  have ht := hsh.t_lt
  have hh := hsh.h_lt
  have hap := hsh.apart
  refine ⟨by omega, by omega, ?_, ?_, ?_, ?_, ?_⟩
  · rw [hhd, htl, hoc]
    rcases hap with hap | hap
    · have : (h : Int) - t = k := by omega
      rw [this]
    · have : (h : Int) - t = k + (-1) * (C - 1) := by omega
      rw [this, Int.add_mul_emod_self]
  · intro st i hi
    have := pointer_of_quiet_write s.q st i hi
    omega
  · intro st i hi
    have := pointer_of_quiet_read s.q st i hi
    omega
  · intro i hi
    have := (hsh.wheld i hi).1
    omega
  · intro i hi
    have := (hsh.rheld i hi).1
    omega

/-- C25, at the history of two writes, a refused write, a read and a further
write on a queue of size 3. -/
theorem c25_indices_stay_in_ring_witness :
    (2 : Int) ≤ 3 ∧
    Session.respects (Session.init 3 0) history_refused_write = true ∧
    ((0 ≤ (Session.run (Session.init 3 0) history_refused_write).q._head ∧
      (Session.run (Session.init 3 0) history_refused_write).q._head ≤ 3 - 2) ∧
     (0 ≤ (Session.run (Session.init 3 0) history_refused_write).q._tail ∧
      (Session.run (Session.init 3 0) history_refused_write).q._tail ≤ 3 - 2) ∧
     ((Session.run (Session.init 3 0) history_refused_write).q._head -
         (Session.run (Session.init 3 0) history_refused_write).q._tail) % (3 - 1) =
       (Session.run (Session.init 3 0) history_refused_write).q._element_size % (3 - 1) ∧
     (∀ (st : cv_status) (i : Int),
       (get_head_to_write (Session.run (Session.init 3 0) history_refused_write).q
         (Waits.quiet st (Session.run (Session.init 3 0) history_refused_write).q)).1 =
           Acquire.slot i →
       0 ≤ i ∧ i ≤ 3 - 2) ∧
     (∀ (st : cv_status) (i : Int),
       (get_tail_to_read (Session.run (Session.init 3 0) history_refused_write).q
         (Waits.quiet st (Session.run (Session.init 3 0) history_refused_write).q)).1 =
           Acquire.slot i →
       0 ≤ i ∧ i ≤ 3 - 2) ∧
     (∀ i, (Session.run (Session.init 3 0) history_refused_write).whold = some i →
       0 ≤ i ∧ i ≤ 3 - 2) ∧
     (∀ i, (Session.run (Session.init 3 0) history_refused_write).rhold = some i →
       0 ≤ i ∧ i ≤ 3 - 2)) :=
  ⟨by decide, by decide,
   c25_indices_stay_in_ring 3 0 (by decide) history_refused_write (by decide)⟩

/-- C27: the record `Analysis::DrawInfo` commits for an alarm does not depend
on what the reused slot held before: for any two prior slot contents and the
same alarm, camera id, time and frame the filled record is the same, and the
record a write attempt leaves in the slot it was handed is the record filled
into a fresh `AlarmData`, whatever the queue held. -/
theorem c27_committed_record_ignores_old_slot (video_id currentTime : String) (img : Mat)
    (info : AnalysisAlarm) :
    (∀ d d1 : AlarmData,
      fill_alarm video_id currentTime img info d =
        fill_alarm video_id currentTime img info d1) ∧
    (∀ (q : AlarmMsgQueue) (env : Env) (i : Int) (q1 : AlarmMsgQueue),
      get_head_to_write q (env q) = (Acquire.slot i, q1) → i.toNat < q1._data.length →
      slot_at (write_attempt q env (fill_alarm video_id currentTime img info)).2 i =
        fill_alarm video_id currentTime img info AlarmData.new) := by
  constructor
  · intro d d1
    rw [fill_alarm_fresh video_id currentTime img info d,
      fill_alarm_fresh video_id currentTime img info d1]
  · intro q env i q1 hget hi
    simp only [write_attempt, hget, slot_at, head_next, store]
    rw [← fill_alarm_fresh video_id currentTime img info (q1._data.getD i.toNat AlarmData.new)]
    simp [List.getD, List.getElem?_set, hi]

/-! ## Properties of the Base64 text -/

set_option maxRecDepth 100000 in
theorem encode_table_alphabet : ∀ i < 64, EncodeTable_at i = rfc4648_alphabet i := by decide

set_option maxRecDepth 100000 in
theorem alphabet_value : ∀ i < 64, rfc4648_value (rfc4648_alphabet i) = some i := by decide

set_option maxRecDepth 100000 in
theorem alphabet_plain : ∀ i < 64, rfc4648_alphabet i ≠ '=' ∧ rfc4648_alphabet i ≠ '\r' := by
  decide

set_option maxRecDepth 100000 in
theorem byte_masks : ∀ b < 256, (b &&& 252) >>> 2 = b / 4 ∧ (b &&& 3) = b % 4 ∧
    (b &&& 240) >>> 4 = b / 16 ∧ (b &&& 15) = b % 16 := by decide

theorem or_shift (a b k : Nat) (h : b < 2 ^ k) : (a <<< k) ||| b = a * 2 ^ k + b := by
  rw [Nat.shiftLeft_eq, Nat.mul_comm, ← Nat.mul_add_lt_is_or h]

theorem and_63 (x : Nat) : x &&& 0x3F = x % 64 := by
  have : (0x3F : Nat) = 2 ^ 6 - 1 := by norm_num
  rw [this, Nat.and_pow_two_sub_one_eq_mod]

theorem index_1 (b1 b2 b3 : Nat) (h2 : b2 < 256) (h3 : b3 < 256) :
    b1 >>> 2 = (b1 * 65536 + b2 * 256 + b3) / 262144 := by
  rw [Nat.shiftRight_eq_div_pow]; omega

theorem index_2 (b1 b2 b3 : Nat) (h2 : b2 < 256) (h3 : b3 < 256) :
    ((b1 <<< 4) ||| (b2 >>> 4)) &&& 0x3F = (b1 * 65536 + b2 * 256 + b3) / 4096 % 64 := by
  have h : b2 >>> 4 < 2 ^ 4 := by
    rw [Nat.shiftRight_eq_div_pow]; omega
  rw [or_shift _ _ _ h, and_63, Nat.shiftRight_eq_div_pow]; omega

theorem index_3 (b1 b2 b3 : Nat) (h3 : b3 < 256) :
    ((b2 <<< 2) ||| (b3 >>> 6)) &&& 0x3F = (b1 * 65536 + b2 * 256 + b3) / 64 % 64 := by
  have h : b3 >>> 6 < 2 ^ 2 := by
    rw [Nat.shiftRight_eq_div_pow]; omega
  rw [or_shift _ _ _ h, and_63, Nat.shiftRight_eq_div_pow]; omega

theorem index_4 (b1 b2 b3 : Nat) :
    b3 &&& 0x3F = (b1 * 65536 + b2 * 256 + b3) % 64 := by
  rw [and_63]; omega

theorem delete_crlf_plain (c : Char) (rest : List Char) (h : c ≠ '\r') :
    delete_crlf (c :: rest) = c :: delete_crlf rest := by
  rw [delete_crlf]
  intro _ h1 _
  exact h h1

theorem delete_crlf_pair (rest : List Char) :
    delete_crlf ('\r' :: '\n' :: rest) = delete_crlf rest := by
  rw [delete_crlf]

theorem triples_induction {P : List Nat → Prop} (h0 : P []) (h1 : ∀ a, P [a])
    (h2 : ∀ a b, P [a, b]) (h3 : ∀ a b c rest, P rest → P (a :: b :: c :: rest)) :
    ∀ l, P l
  | [] => h0
  | [a] => h1 a
  | [a, b] => h2 a b
  | a :: b :: c :: rest => h3 a b c rest (triples_induction h0 h1 h2 h3 rest)

theorem loop_succ (n b1 b2 b3 : Nat) (rest : List Nat) (LineLength : Nat)
    (strEncode : List Char) :
    base64Encode.loop (n + 1) (b1 :: b2 :: b3 :: rest) LineLength strEncode =
      base64Encode.loop n rest (if LineLength + 4 = 76 then 0 else LineLength + 4)
        (strEncode ++
          [EncodeTable_at (b1 >>> 2),
           EncodeTable_at (((b1 <<< 4) ||| (b2 >>> 4)) &&& 0x3F),
           EncodeTable_at (((b2 <<< 2) ||| (b3 >>> 6)) &&& 0x3F),
           EncodeTable_at (b3 &&& 0x3F)] ++
          (if LineLength + 4 = 76 then ['\r', '\n'] else [])) := by
  rw [base64Encode.loop]
  by_cases h : LineLength + 4 = 76 <;> simp [h]

theorem quad_plain (b1 b2 b3 : Nat) (h1 : b1 < 256) (h2 : b2 < 256) (h3 : b3 < 256)
    (crlf : Bool) (text : List Char) :
    delete_crlf
      ([EncodeTable_at (b1 >>> 2),
        EncodeTable_at (((b1 <<< 4) ||| (b2 >>> 4)) &&& 0x3F),
        EncodeTable_at (((b2 <<< 2) ||| (b3 >>> 6)) &&& 0x3F),
        EncodeTable_at (b3 &&& 0x3F)] ++
        (if crlf then ['\r', '\n'] else []) ++ text) =
      rfc4648_alphabet ((b1 * 65536 + b2 * 256 + b3) / 262144) ::
        rfc4648_alphabet ((b1 * 65536 + b2 * 256 + b3) / 4096 % 64) ::
        rfc4648_alphabet ((b1 * 65536 + b2 * 256 + b3) / 64 % 64) ::
        rfc4648_alphabet ((b1 * 65536 + b2 * 256 + b3) % 64) :: delete_crlf text := by
  rw [index_1 b1 b2 b3 h2 h3, index_2 b1 b2 b3 h2 h3, index_3 b1 b2 b3 h3, index_4 b1 b2 b3]
  have g1 : (b1 * 65536 + b2 * 256 + b3) / 262144 < 64 := by omega
  have g2 : (b1 * 65536 + b2 * 256 + b3) / 4096 % 64 < 64 := by omega
  have g3 : (b1 * 65536 + b2 * 256 + b3) / 64 % 64 < 64 := by omega
  have g4 : (b1 * 65536 + b2 * 256 + b3) % 64 < 64 := by omega
  rw [encode_table_alphabet _ g1, encode_table_alphabet _ g2, encode_table_alphabet _ g3,
    encode_table_alphabet _ g4]
  simp only [List.cons_append, List.nil_append]
  rw [delete_crlf_plain _ _ (alphabet_plain _ g1).2, delete_crlf_plain _ _ (alphabet_plain _ g2).2,
    delete_crlf_plain _ _ (alphabet_plain _ g3).2, delete_crlf_plain _ _ (alphabet_plain _ g4).2]
  cases crlf
  · simp
  · simp [delete_crlf_pair]

theorem loop_output (n : Nat) : ∀ (Data : List Nat) (LineLength : Nat) (strEncode : List Char),
    3 * n ≤ Data.length → (∀ b ∈ Data, b < 256) →
    ∃ out, base64Encode.loop n Data LineLength strEncode = (Data.drop (3 * n), strEncode ++ out) ∧
      ∀ text, delete_crlf text = rfc4648_encode (Data.drop (3 * n)) →
        delete_crlf (out ++ text) = rfc4648_encode Data := by
  induction n with
  | zero =>
    intro Data LineLength strEncode _ _
    exact ⟨[], by simp [base64Encode.loop], fun text h => by simpa using h⟩
  | succ n ih =>
    intro Data LineLength strEncode hlen hb
    match Data, hlen, hb with
    | b1 :: b2 :: b3 :: rest, hlen, hb =>
      have hrest : 3 * n ≤ rest.length := by
        simp only [List.length_cons] at hlen; omega
      have hb1 : b1 < 256 := hb b1 (by simp)
      have hb2 : b2 < 256 := hb b2 (by simp)
      have hb3 : b3 < 256 := hb b3 (by simp)
      have hbr : ∀ b ∈ rest, b < 256 := fun b h => hb b (by simp [h])
      obtain ⟨out, hout, htext⟩ := ih rest (if LineLength + 4 = 76 then 0 else LineLength + 4)
        (strEncode ++
          [EncodeTable_at (b1 >>> 2),
           EncodeTable_at (((b1 <<< 4) ||| (b2 >>> 4)) &&& 0x3F),
           EncodeTable_at (((b2 <<< 2) ||| (b3 >>> 6)) &&& 0x3F),
           EncodeTable_at (b3 &&& 0x3F)] ++
          (if LineLength + 4 = 76 then ['\r', '\n'] else [])) hrest hbr
      have hdrop : (b1 :: b2 :: b3 :: rest).drop (3 * (n + 1)) = rest.drop (3 * n) := by
        have : 3 * (n + 1) = 3 * n + 1 + 1 + 1 := by ring
        rw [this, List.drop_succ_cons, List.drop_succ_cons, List.drop_succ_cons]
      refine ⟨[EncodeTable_at (b1 >>> 2),
           EncodeTable_at (((b1 <<< 4) ||| (b2 >>> 4)) &&& 0x3F),
           EncodeTable_at (((b2 <<< 2) ||| (b3 >>> 6)) &&& 0x3F),
           EncodeTable_at (b3 &&& 0x3F)] ++
          (if decide (LineLength + 4 = 76) = true then ['\r', '\n'] else []) ++ out, ?_, ?_⟩
      · rw [loop_succ, hout, hdrop]
        simp [List.append_assoc]
      · intro text h
        rw [hdrop] at h
        rw [List.append_assoc, quad_plain b1 b2 b3 hb1 hb2 hb3, htext text h, rfc4648_encode]
    | [], hlen, _ => simp at hlen
    | [_], hlen, _ => simp at hlen; omega
    | [_, _], hlen, _ => simp at hlen; omega

theorem decode_encode : ∀ data : List Nat, (∀ b ∈ data, b < 256) →
    rfc4648_decode (rfc4648_encode data) = some data := by
  apply triples_induction
  · intro _; rfl
  · intro a h
    have ha : a < 256 := h a (by simp)
    have g1 : a * 65536 / 262144 < 64 := by omega
    have g2 : a * 65536 / 4096 % 64 < 64 := by omega
    simp only [rfc4648_encode, rfc4648_decode, alphabet_value _ g1, alphabet_value _ g2]
    simp
    omega
  · intro a b h
    have ha : a < 256 := h a (by simp)
    have hb : b < 256 := h b (by simp)
    have g1 : (a * 65536 + b * 256) / 262144 < 64 := by omega
    have g2 : (a * 65536 + b * 256) / 4096 % 64 < 64 := by omega
    have g3 : (a * 65536 + b * 256) / 64 % 64 < 64 := by omega
    simp only [rfc4648_encode, rfc4648_decode, alphabet_value _ g1, alphabet_value _ g2,
      alphabet_value _ g3]
    simp [(alphabet_plain _ g3).1]
    omega
  · intro a b c rest ih h
    have ha : a < 256 := h a (by simp)
    have hb : b < 256 := h b (by simp)
    have hc : c < 256 := h c (by simp)
    have hr : ∀ x ∈ rest, x < 256 := fun x hx => h x (by simp [hx])
    have g1 : (a * 65536 + b * 256 + c) / 262144 < 64 := by omega
    have g2 : (a * 65536 + b * 256 + c) / 4096 % 64 < 64 := by omega
    have g3 : (a * 65536 + b * 256 + c) / 64 % 64 < 64 := by omega
    have g4 : (a * 65536 + b * 256 + c) % 64 < 64 := by omega
    simp only [rfc4648_encode, rfc4648_decode, alphabet_value _ g1, alphabet_value _ g2,
      alphabet_value _ g3, alphabet_value _ g4, ih hr]
    simp [(alphabet_plain _ g4).1]
    omega

theorem delete_crlf_padding : delete_crlf ['=', '='] = ['=', '='] ∧ delete_crlf ['='] = ['='] := by
  decide

theorem tail_one (a : Nat) (ha : a < 256) :
    delete_crlf ([EncodeTable_at ((a &&& 0xFC) >>> 2), EncodeTable_at ((a &&& 0x03) <<< 4)] ++
      ['=', '=']) = rfc4648_encode [a] := by
  have e1 : (a &&& 0xFC) >>> 2 = a * 65536 / 262144 := by
    rw [(byte_masks a ha).1]; omega
  have e2 : (a &&& 0x03) <<< 4 = a * 65536 / 4096 % 64 := by
    rw [(byte_masks a ha).2.1, Nat.shiftLeft_eq]; omega
  have g1 : a * 65536 / 262144 < 64 := by omega
  have g2 : a * 65536 / 4096 % 64 < 64 := by omega
  rw [e1, e2, encode_table_alphabet _ g1, encode_table_alphabet _ g2]
  simp only [List.cons_append, List.nil_append]
  rw [delete_crlf_plain _ _ (alphabet_plain _ g1).2, delete_crlf_plain _ _ (alphabet_plain _ g2).2,
    delete_crlf_padding.1, rfc4648_encode]

theorem tail_two (a b : Nat) (ha : a < 256) (hb : b < 256) :
    delete_crlf ([EncodeTable_at ((a &&& 0xFC) >>> 2),
      EncodeTable_at (((a &&& 0x03) <<< 4) ||| ((b &&& 0xF0) >>> 4)),
      EncodeTable_at ((b &&& 0x0F) <<< 2)] ++ ['=']) = rfc4648_encode [a, b] := by
  have e1 : (a &&& 0xFC) >>> 2 = (a * 65536 + b * 256) / 262144 := by
    rw [(byte_masks a ha).1]; omega
  have e2 : ((a &&& 0x03) <<< 4) ||| ((b &&& 0xF0) >>> 4) =
      (a * 65536 + b * 256) / 4096 % 64 := by
    have h : (b &&& 0xF0) >>> 4 < 2 ^ 4 := by
      rw [(byte_masks b hb).2.2.1]; omega
    rw [or_shift _ _ _ h, (byte_masks a ha).2.1, (byte_masks b hb).2.2.1]; omega
  have e3 : (b &&& 0x0F) <<< 2 = (a * 65536 + b * 256) / 64 % 64 := by
    rw [(byte_masks b hb).2.2.2, Nat.shiftLeft_eq]; omega
  have g1 : (a * 65536 + b * 256) / 262144 < 64 := by omega
  have g2 : (a * 65536 + b * 256) / 4096 % 64 < 64 := by omega
  have g3 : (a * 65536 + b * 256) / 64 % 64 < 64 := by omega
  rw [e1, e2, e3, encode_table_alphabet _ g1, encode_table_alphabet _ g2,
    encode_table_alphabet _ g3]
  simp only [List.cons_append, List.nil_append]
  rw [delete_crlf_plain _ _ (alphabet_plain _ g1).2, delete_crlf_plain _ _ (alphabet_plain _ g2).2,
    delete_crlf_plain _ _ (alphabet_plain _ g3).2, delete_crlf_padding.2, rfc4648_encode]

theorem encode_without_crlf (data : List Nat) (hb : ∀ b ∈ data, b < 256) :
    delete_crlf (base64Encode data data.length) = rfc4648_encode data := by
  obtain ⟨out, hout, htext⟩ := loop_output (data.length / 3) data 0 [] (by omega) hb
  have hlen : (data.drop (3 * (data.length / 3))).length = data.length % 3 := by
    rw [List.length_drop]; omega
  have hbd : ∀ b ∈ data.drop (3 * (data.length / 3)), b < 256 :=
    fun b h => hb b (List.mem_of_mem_drop h)
  simp only [base64Encode, hout, List.nil_append]
  generalize data.drop (3 * (data.length / 3)) = left at hlen hbd htext
  match left, hlen, hbd with
  | [], hlen, _ =>
    have h0 : data.length % 3 = 0 := by simpa using hlen.symm
    simp only [h0]
    simpa using htext [] rfl
  | [a], hlen, hbd =>
    have h1 : data.length % 3 = 1 := by simpa using hlen.symm
    simp only [h1, if_true, List.getD_cons_zero, List.append_assoc]
    exact htext _ (tail_one a (hbd a (by simp)))
  | [a, b], hlen, hbd =>
    have h2 : data.length % 3 = 2 := by simpa using hlen.symm
    simp only [h2, List.append_assoc]
    simp only [show ¬ (2 = 1) by decide, if_false, if_true, List.getD_cons_zero,
      List.getD_cons_succ]
    exact htext _ (tail_two a b (hbd a (by simp)) (hbd b (by simp)))
  | _ :: _ :: _ :: _, hlen, _ =>
    simp only [List.length_cons] at hlen; omega

/-- C30: for every sequence of bytes, the output of `base64Encode` with every CR LF pair
deleted is the padded Base64 encoding of RFC 4648 of the input, and decoding it gives the
input back. -/
theorem c30_base64_encode_is_rfc4648 (data : List Nat) (hbytes : ∀ b ∈ data, b < 256) :
    delete_crlf (base64Encode data data.length) = rfc4648_encode data ∧
      rfc4648_decode (delete_crlf (base64Encode data data.length)) = some data := by
  have h := encode_without_crlf data hbytes
  exact ⟨h, by rw [h]; exact decode_encode data hbytes⟩

theorem c30_base64_encode_is_rfc4648_witness :
    (∀ b ∈ sample_bytes, b < 256) ∧
      String.mk (base64Encode sample_bytes 58) =
        "BSpPdJm+4wgtUnecweYLMFV6n8TpDjNYfaLH7BE2W4Clyu8UOV6DqM3yFzxhhqvQ9Ro/ZImu0/gd\r\nQg==" ∧
      delete_crlf (base64Encode sample_bytes sample_bytes.length) = rfc4648_encode sample_bytes ∧
      rfc4648_decode (delete_crlf (base64Encode sample_bytes sample_bytes.length)) =
        some sample_bytes :=
  ⟨by decide, by decide, c30_base64_encode_is_rfc4648 sample_bytes (by decide)⟩

/-! ## Properties of stopping a stage -/

theorem stage_stuck (turns : List Turn) : ∀ s : Stage, s._is_run = true →
    s.stopper = StopAt.join → (s.runner = RunAt.test ∨ s.runner = RunAt.pass) →
    (Stage.play s turns)._is_run = true ∧ (Stage.play s turns).stopper = StopAt.join ∧
      ((Stage.play s turns).runner = RunAt.test ∨ (Stage.play s turns).runner = RunAt.pass) := by
  induction turns with
  | nil => intro s h1 h2 h3; exact ⟨h1, h2, h3⟩
  | cons t rest ih =>
    intro s h1 h2 h3
    rw [Stage.play]
    apply ih
    · cases t <;> rcases h3 with h3 | h3 <;> simp [Stage.step, h1, h2, h3]
    · cases t <;> rcases h3 with h3 | h3 <;> simp [Stage.step, h1, h2, h3]
    · cases t <;> rcases h3 with h3 | h3 <;> simp [Stage.step, h1, h2, h3]

/-- C24, refuted at the interleaving in which `Stop()` clears `_is_run` before
the new thread has run the first statement `_is_run = true` of `Run()`:
whatever steps follow, the flag stays set, the loop goes on and `Stop()` stays
in `join()`. When `Run()` sets the flag first, the same `Stop()` returns. -/
theorem c24_stop_before_run_sets_flag_never_returns :
    (∀ turns : List Turn,
      (Stage.play Stage.started (Turn.stop :: Turn.run :: turns))._is_run = true ∧
      (Stage.play Stage.started (Turn.stop :: Turn.run :: turns)).stopper = StopAt.join ∧
      (Stage.play Stage.started (Turn.stop :: Turn.run :: turns)).runner ≠ RunAt.ended) ∧
    Stage.play Stage.started
        [Turn.run, Turn.stop, Turn.run, Turn.run, Turn.stop, Turn.stop] =
      { _is_run := false, runner := RunAt.ended, stopper := StopAt.returned } := by
  refine ⟨fun turns => ?_, by decide⟩
  have h := stage_stuck turns (Stage.play Stage.started [Turn.stop, Turn.run])
    (by decide) (by decide) (by decide)
  have e : Stage.play Stage.started (Turn.stop :: Turn.run :: turns) =
      Stage.play (Stage.play Stage.started [Turn.stop, Turn.run]) turns := rfl
  rw [e]
  refine ⟨h.1, h.2.1, ?_⟩
  rcases h.2.2 with h3 | h3 <;> rw [h3] <;> decide

end RiverAnalysis
